import Mathlib

/-!
# HexBoard firmware core: shallow embedding and verification

This file embeds, in Lean, the envelope engine, the synth voice allocator,
the MIDI/MPE channel allocator and the note dispatcher of the HexBoard
firmware, and proves properties of them.

Conventions of the embedding:
* machine integers (`byte`, `uint16_t`, `uint32_t`, `int16_t`) become `Nat`
  and `Int`; `% 2^32` is written explicitly where the 32-bit generation
  counter wraps;
* the per-voice atomics (`envelopeCommands`, `channelInUse`,
  `envelopeNeedsFree`, `voiceGenerations`, `synthChannelOwners`) become
  plain fields of a `Voice` record; an atomic exchange is modelled by
  reading the field and overwriting it in the same step;
* `sendToLog` messages become constructors of a `LogEvent` type, and the
  MIDI wire messages become constructors of a `Msg` type, both appended to
  lists carried in the state;
* the floating-point frequency/oscillator-increment computation of
  `setSynthFreq` is abstracted by a function parameter `incOf` giving the
  increment resulting for a key, and the floating-point just-intonation
  retune value is abstracted by a parameter `ji`; neither value influences
  any allocator decision.  The just-intonation ratio scan itself is
  embedded separately over `ℝ` (`justIntonationRatioScan`).
-/

namespace HexBoard

/-- `#define POLYPHONY_LIMIT 8` -/
def POLYPHONY_LIMIT : Nat := 8

/-- `constexpr uint32_t envelopeMaxLevel = 65535` -/
def envelopeMaxLevel : Nat := 65535

/-- `#define POLL_INTERVAL_IN_MICROSECONDS 24` -/
def POLL_INTERVAL_IN_MICROSECONDS : Nat := 24

/-- `constexpr uint8_t releaseRetryLimit = 2` -/
def releaseRetryLimit : Nat := 2

/-- `constexpr uint8_t releaseRetryDelayLoops = 2` -/
def releaseRetryDelayLoops : Nat := 2

/-- `#define UNUSED_NOTE 255` -/
def UNUSED_NOTE : Nat := 255

/-- `#define SYNTH_OFF 0` -/
def SYNTH_OFF : Nat := 0

/-- `#define SYNTH_MONO 1` -/
def SYNTH_MONO : Nat := 1

/-- `#define SYNTH_ARPEGGIO 2` -/
def SYNTH_ARPEGGIO : Nat := 2

/-- `#define SYNTH_POLY 3` -/
def SYNTH_POLY : Nat := 3

/-- `constexpr int16_t NO_SYNTH_OWNER = -1` -/
def NO_SYNTH_OWNER : Int := -1

/-- One past the largest value of a `uint32_t`; `fetch_add` on the
32-bit generation counter wraps modulo this. -/
def U32 : Nat := 4294967296

/-- `ticksFromMicros`: number of audio ticks covering `micros`
microseconds, rounding up (0 stays 0). -/
def ticksFromMicros (micros : Nat) : Nat :=
  if micros = 0 then 0
  else (micros + POLL_INTERVAL_IN_MICROSECONDS - 1) / POLL_INTERVAL_IN_MICROSECONDS

/-- `positiveMod`: C `%` truncates toward zero, so the source adds the
divisor and reduces again to get a nonnegative representative. -/
def positiveMod (n d : Int) : Int := (Int.tmod n d + d).tmod d

/-- `enum class EnvelopeStage` -/
inductive EnvelopeStage
  | Idle
  | Attack
  | Decay
  | Sustain
  | Release
deriving DecidableEq, Repr

/-- `enum class EnvelopeCommand` -/
inductive EnvelopeCommand
  | None
  | StartAttack
  | StartRelease
  | Reset
deriving DecidableEq, Repr

/-- `struct EnvelopeParams` -/
structure EnvelopeParams where
  attackTicks : Nat := 0
  decayTicks : Nat := 0
  releaseTicks : Nat := 0
  attackIncrement : Nat := envelopeMaxLevel
  decayIncrement : Nat := envelopeMaxLevel
  sustainLevel : Nat := envelopeMaxLevel
deriving DecidableEq, Repr

/-- `struct EnvelopeState` -/
structure EnvelopeState where
  level : Nat := 0
  releaseIncrement : Nat := 0
  stage : EnvelopeStage := .Idle
deriving DecidableEq, Repr

/-- `constexpr std::array<uint32_t, 10> envelopeTimeMicrosOptions` -/
def envelopeTimeMicrosOptions : List Nat :=
  [0, 5000, 10000, 20000, 50000, 100000, 200000, 500000, 1000000, 2000000]

/-- `updateEnvelopeParamsFromSettings`, as a function of the looked-up
attack/decay/release times in microseconds and the sustain byte
(`envelopeSustainLevel`, clamped to 0..127). -/
def envelopeParamsFromSettings (attackMicros decayMicros sustain releaseMicros : Nat) :
    EnvelopeParams :=
  let attackTicks := ticksFromMicros attackMicros
  let attackIncrement :=
    if attackTicks = 0 then envelopeMaxLevel
    else max 1 ((envelopeMaxLevel + attackTicks - 1) / attackTicks)
  let sustainByte := min 127 sustain
  let sustainLevel := sustainByte * envelopeMaxLevel / 127
  let decayTicks := ticksFromMicros decayMicros
  let decayIncrement :=
    if decayTicks = 0 ∨ envelopeMaxLevel ≤ sustainLevel then envelopeMaxLevel
    else max 1 ((envelopeMaxLevel - sustainLevel + decayTicks - 1) / decayTicks)
  { attackTicks := attackTicks
    attackIncrement := attackIncrement
    sustainLevel := sustainLevel
    decayTicks := decayTicks
    decayIncrement := decayIncrement
    releaseTicks := ticksFromMicros releaseMicros }

/-- One synth voice: the envelope state plus the per-voice cross-core
cells (`envelopeCommands[i]`, `channelInUse[i]`, `envelopeNeedsFree[i]`,
`voiceGenerations[i]`, `synthChannelOwners[i]`), the oscillator
phase-accumulator fields of `synth[i]` that the envelope code touches,
and the release retry bookkeeping. -/
structure Voice where
  env : EnvelopeState := {}
  cmd : EnvelopeCommand := .None
  inUse : Bool := false
  needsFree : Bool := false
  generation : Nat := 0
  owner : Int := NO_SYNTH_OWNER
  increment : Nat := 0
  counter : Nat := 0
  retries : Nat := 0
  retryCountdown : Nat := 0
deriving DecidableEq, Repr

/-- The command-consumption step at the top of `poll()`'s per-voice loop
(lines 3375-3430): atomically exchange the pending command for `None`
and apply it.  Threads the global `nextVoiceGeneration` counter, which
the `StartAttack` arm stamps on a voice whose generation is 0. -/
def applyCommand (p : EnvelopeParams) (vg : Voice × Nat) : Voice × Nat :=
  let v := vg.1
  let g := vg.2
  match v.cmd with
  | .StartAttack =>
    let env0 : EnvelopeState := { v.env with releaseIncrement := 0 }
    let env1 : EnvelopeState :=
      if p.attackTicks = 0 then
        if p.decayTicks = 0 ∨ envelopeMaxLevel ≤ p.sustainLevel then
          { env0 with stage := .Sustain, level := p.sustainLevel }
        else
          { env0 with stage := .Decay, level := envelopeMaxLevel }
      else
        { env0 with stage := .Attack, level := 0 }
    let env2 : EnvelopeState :=
      if env1.stage = .Decay ∧ p.decayTicks = 0 then
        { env1 with stage := .Sustain, level := p.sustainLevel }
      else env1
    let env3 : EnvelopeState :=
      if env2.stage = .Sustain then { env2 with level := p.sustainLevel } else env2
    let v1 : Voice := { v with cmd := .None, env := env3, needsFree := false }
    if v1.generation = 0 then ({ v1 with generation := g }, (g + 1) % U32)
    else (v1, g)
  | .StartRelease =>
    if p.releaseTicks = 0 ∨ v.env.level = 0 then
      let env1 : EnvelopeState := { v.env with level := 0, stage := .Idle }
      ({ v with cmd := .None, env := env1, increment := 0, counter := 0, needsFree := true }, g)
    else
      let inc := max 1 ((v.env.level + p.releaseTicks - 1) / p.releaseTicks)
      let env1 : EnvelopeState := { v.env with stage := .Release, releaseIncrement := inc }
      ({ v with cmd := .None, env := env1 }, g)
  | .Reset =>
    let v1 : Voice := { v with cmd := .None, env := {}, increment := 0, counter := 0 }
    ({ v1 with inUse := false, needsFree := false, generation := 0 }, g)
  | .None => (v, g)

/-- The per-stage envelope advance (the `switch (env.stage)` of `poll()`,
lines 3436-3486), reached only when the voice is not (idle with a zero
increment). -/
def advanceStage (p : EnvelopeParams) (v : Voice) : Voice :=
  match v.env.stage with
  | .Attack =>
    let nextLevel := v.env.level + p.attackIncrement
    if envelopeMaxLevel ≤ v.env.level ∨ envelopeMaxLevel ≤ nextLevel then
      if p.decayTicks = 0 ∨ envelopeMaxLevel ≤ p.sustainLevel then
        { v with env := { v.env with stage := .Sustain, level := p.sustainLevel } }
      else
        { v with env := { v.env with stage := .Decay, level := envelopeMaxLevel } }
    else
      { v with env := { v.env with level := nextLevel } }
  | .Decay =>
    if p.decayTicks = 0 ∨ envelopeMaxLevel ≤ p.sustainLevel then
      { v with env := { v.env with stage := .Sustain, level := p.sustainLevel } }
    else if p.sustainLevel < v.env.level then
      let nextLevel := if p.decayIncrement < v.env.level then v.env.level - p.decayIncrement else 0
      if nextLevel ≤ p.sustainLevel then
        { v with env := { v.env with stage := .Sustain, level := p.sustainLevel } }
      else
        { v with env := { v.env with level := nextLevel } }
    else
      { v with env := { v.env with stage := .Sustain, level := p.sustainLevel } }
  | .Sustain =>
    { v with env := { v.env with level := p.sustainLevel } }
  | .Release =>
    if p.releaseTicks = 0 ∨ v.env.releaseIncrement = 0 ∨ v.env.level ≤ v.env.releaseIncrement then
      let env1 : EnvelopeState := { v.env with level := 0, stage := .Idle }
      { v with env := env1, increment := 0, counter := 0, needsFree := true }
    else
      { v with env := { v.env with level := v.env.level - v.env.releaseIncrement } }
  | .Idle =>
    { v with env := { v.env with level := 0 }, increment := 0, counter := 0 }

/-- One audio tick of `poll()` for one voice: consume the pending
command, skip a silent idle voice, advance the envelope stage, then
either set `needsFree` (post-switch idle check) or advance the phase
accumulator.  The sample synthesis itself is outside the model. -/
def tickVoice (p : EnvelopeParams) (vg : Voice × Nat) : Voice × Nat :=
  let r := applyCommand p vg
  let v1 := r.1
  if v1.increment = 0 ∧ v1.env.stage = .Idle then r
  else
    let v2 := advanceStage p v1
    if v2.env.stage = .Idle then
      -- the `Idle` switch arm continues without touching `needsFree`;
      -- a voice that became idle during `Release` hits the post-switch check
      (if v1.env.stage = .Idle then v2 else { v2 with needsFree := true }, r.2)
    else if v2.env.level = 0 ∨ v2.increment = 0 then (v2, r.2)
    else ({ v2 with counter := (v2.counter + v2.increment) % 65536 }, r.2)

/-- The fields of a `buttonDef` (`h[i]`) that the note dispatcher and the
allocators read and write.  `bend`/`jiRetune` are the stored `int16_t`
pitch-bend and just-intonation correction. -/
structure Key where
  note : Nat := UNUSED_NOTE
  MIDIch : Nat := 0
  synthCh : Nat := 0
  mappedMidiChannel : Nat := 0
  stepsFromC : Int := 0
  bend : Int := 0
  jiRetune : Int := 0
  isCmd : Bool := false
deriving DecidableEq, Repr

/-- A MIDI wire message, as produced through `withMIDI`. -/
inductive Msg
  | noteOn (note vel ch : Nat)
  | noteOff (note vel ch : Nat)
  | pitchBend (v : Int) (ch : Nat)
  | afterTouch (v ch : Nat)
  | controlChange (cc v ch : Nat)
deriving DecidableEq, Repr

/-- A `sendToLog` event emitted by the embedded functions (the textual
payload is reduced to the identity of the message). -/
inductive LogEvent
  | noMPEChannelsConfigured
  | mpePoolEmpty
  | assignedMPE (ch : Nat)
  | sentPitchBend (v : Int) (ch : Nat)
  | sentNoteOn (note ch : Nat)
  | sentNoteOff (note ch : Nat)
  | returnedMPE (ch : Nat)
  | allVoicesFiring
  | stoleSynthChannel (ch : Nat)
  | poppedSynthChannel (ch : Nat)
deriving DecidableEq, Repr

/-- The global configuration values the dispatcher and allocators read:
`MPEpitchBendsNeeded`, `standardMidiMicrotonalActive`,
`defaultMidiChannel`, the MPE channel range, the pool discipline, whether
the channel pool is active, `extraMPE`, the velocity wheel value,
`CC74value`, `BTN_COUNT`, `playbackMode`, and whether either
just-intonation mode is on. -/
structure Config where
  pitchBendsNeeded : Nat := 255
  standardMidiMicrotonalActive : Bool := false
  defaultMidiChannel : Nat := 1
  mpeLowestChannel : Nat := 2
  mpeHighestChannel : Nat := 16
  mpeLowPriorityMode : Bool := false
  mpeChannelQueueActive : Bool := false
  extraMPE : Bool := false
  velocity : Nat := 100
  cc74 : Nat := 0
  btnCount : Nat := 140
  playbackMode : Nat := SYNTH_POLY
  jiEnabled : Bool := false
deriving DecidableEq, Repr

/-- The mutable control-core state shared by the dispatcher and the two
allocators: the key records `h`, the held-key stack `pressedKeyIDs`, the
MPE pool `mpeAvailableChannels`, the synth free-list `synthChQueue`
(front of the list = front of the queue), the voice array, the global
generation counter, plus the emitted wire messages and log events. -/
structure CtrlState where
  keys : List Key := []
  pressedKeyIDs : List Nat := []
  mpeAvailableChannels : List Nat := []
  synthQueue : List Nat := []
  voices : List Voice := []
  nextVoiceGeneration : Nat := 1
  arpeggiatingNow : Nat := UNUSED_NOTE
  msgs : List Msg := []
  log : List LogEvent := []
deriving DecidableEq, Repr

/-- Read `h[x]` (out-of-range reads give a default record, matching the
code's assumption that `x < BTN_COUNT`). -/
def getKey (s : CtrlState) (x : Nat) : Key := s.keys.getD x {}

/-- Write `h[x]`. -/
def setKey (s : CtrlState) (x : Nat) (k : Key) : CtrlState :=
  { s with keys := s.keys.set x k }

/-- Read voice slot `i` (0-based). -/
def getVoice (s : CtrlState) (i : Nat) : Voice := s.voices.getD i {}

/-- Write voice slot `i`. -/
def setVoice (s : CtrlState) (i : Nat) (v : Voice) : CtrlState :=
  { s with voices := s.voices.set i v }

/-- `mpePlayableChannelCount` -/
def mpePlayableChannelCount (cfg : Config) : Nat :=
  if cfg.mpeHighestChannel < cfg.mpeLowestChannel then 0
  else cfg.mpeHighestChannel - cfg.mpeLowestChannel + 1

/-- `takeMPEChannel`: both pool disciplines pop the front element (the
source's two branches are identical); an empty pool yields channel 0. -/
def takeMPEChannel (pool : List Nat) : Nat × List Nat :=
  match pool with
  | [] => (0, [])
  | c :: rest => (c, rest)

/-- `releaseMPEChannel`: return a channel to the pool — sorted insertion
(`std::lower_bound`) in low-priority mode, `push_back` otherwise; a
channel outside the configured range is dropped. -/
def releaseMPEChannel (cfg : Config) (ch : Nat) (pool : List Nat) : List Nat :=
  if ch < cfg.mpeLowestChannel ∨ cfg.mpeHighestChannel < ch then pool
  else if cfg.mpeLowPriorityMode then pool.orderedInsert (· ≤ ·) ch
  else pool ++ [ch]

/-- `combinedPitchBend`: the key's stored bend plus its just-intonation
retune, clamped to the 14-bit signed pitch-bend range. -/
def combinedPitchBend (bend jiRetune : Int) : Int :=
  let combined := bend + jiRetune
  if 8191 < combined then 8191
  else if combined < -8192 then -8192
  else combined

/-- The channel-assignment phase of `tryMIDInoteOn` (the outer
`if (!(h[x].MIDIch))` body up to the sends): fixed channel when
`MPEpitchBendsNeeded == 1`, otherwise pool pop or step-hash. -/
def assignMIDIChannelOnPress (cfg : Config) (s : CtrlState) (x : Nat) (k : Key) : CtrlState :=
  if cfg.pitchBendsNeeded = 1 then
    let ch :=
      if cfg.standardMidiMicrotonalActive then
        if k.mappedMidiChannel ≠ 0 then k.mappedMidiChannel else cfg.defaultMidiChannel
      else cfg.defaultMidiChannel
    setKey s x { k with MIDIch := ch }
  else
    let avail := mpePlayableChannelCount cfg
    if avail = 0 then { s with log := s.log ++ [.noMPEChannelsConfigured] }
    else if cfg.mpeChannelQueueActive then
      let t := takeMPEChannel s.mpeAvailableChannels
      if t.1 = 0 then { s with log := s.log ++ [.mpePoolEmpty] }
      else
        let s' : CtrlState :=
          { s with mpeAvailableChannels := t.2, log := s.log ++ [.assignedMPE t.1] }
        setKey s' x { k with MIDIch := t.1 }
    else
      setKey s x
        { k with MIDIch := cfg.mpeLowestChannel + (positiveMod k.stepsFromC avail).toNat }

/-- The send phase of `tryMIDInoteOn` (the `if (h[x].MIDIch)` body):
push the key on `pressedKeyIDs`, store the just-intonation retune, send
the pitch bend (and optional extra MPE messages) followed by the
note-on. -/
def sendNoteOnMessages (cfg : Config) (ji : CtrlState → Nat → Int) (s1 : CtrlState) (x : Nat) :
    CtrlState :=
  let k1 := getKey s1 x
  if k1.MIDIch ≠ 0 then
    let s2 : CtrlState := { s1 with pressedKeyIDs := s1.pressedKeyIDs ++ [x] }
    let jiVal : Int := if cfg.jiEnabled then ji s2 x else 0
    let s3 := setKey s2 x { k1 with jiRetune := jiVal }
    let pb : Int := combinedPitchBend k1.bend jiVal
    let pbMsgs : List Msg :=
      if cfg.pitchBendsNeeded ≠ 1 then
        [Msg.pitchBend pb k1.MIDIch] ++
          (if cfg.extraMPE then
             [Msg.afterTouch cfg.velocity k1.MIDIch, Msg.controlChange 74 cfg.cc74 k1.MIDIch]
           else [])
      else []
    let sentPB : Int := if cfg.pitchBendsNeeded ≠ 1 then pb else 0
    { s3 with
        msgs := s3.msgs ++ (pbMsgs ++ [Msg.noteOn k1.note cfg.velocity k1.MIDIch])
        log := s3.log ++ [.sentPitchBend sentPB k1.MIDIch, .sentNoteOn k1.note k1.MIDIch] }
  else s1

/-- `tryMIDInoteOn`.  `ji` abstracts the floating-point
`justIntonationRetune` value (the code stores 0 when both
just-intonation modes are off). -/
def tryMIDInoteOn (cfg : Config) (ji : CtrlState → Nat → Int) (s : CtrlState) (x : Nat) :
    CtrlState :=
  let k := getKey s x
  if 128 ≤ k.note then s
  else if k.MIDIch ≠ 0 then s
  else sendNoteOnMessages cfg ji (assignMIDIChannelOnPress cfg s x k) x

/-- `tryMIDInoteOff`. -/
def tryMIDInoteOff (cfg : Config) (s : CtrlState) (x : Nat) : CtrlState :=
  let k := getKey s x
  if k.MIDIch = 0 then s
  else
    let s1 : CtrlState :=
      { s with
          msgs := s.msgs ++ [Msg.noteOff k.note cfg.velocity k.MIDIch]
          pressedKeyIDs := s.pressedKeyIDs.dropLast
          log := s.log ++ [.sentNoteOff k.note k.MIDIch] }
    let s2 := setKey s1 x { k with jiRetune := 0 }
    let s3 : CtrlState :=
      if cfg.mpeChannelQueueActive ∧ cfg.mpeLowestChannel ≤ k.MIDIch ∧
          k.MIDIch ≤ cfg.mpeHighestChannel then
        let extra : List Msg :=
          if cfg.extraMPE then
            [Msg.afterTouch 0 k.MIDIch, Msg.controlChange 74 cfg.cc74 k.MIDIch]
          else []
        { s2 with
            msgs := s2.msgs ++ extra
            mpeAvailableChannels := releaseMPEChannel cfg k.MIDIch s2.mpeAvailableChannels
            log := s2.log ++ [.returnedMPE k.MIDIch] }
      else s2
    setKey s3 x { getKey s3 x with MIDIch := 0 }

/-- `beginEnvelopeAttack`: mark the voice in use, clear `needsFree` and
the retry counters, and store the `StartAttack` command. -/
def beginEnvelopeAttack (s : CtrlState) (i : Nat) : CtrlState :=
  let v := getVoice s i
  setVoice s i
    { v with inUse := true, needsFree := false, retries := 0, retryCountdown := 0, cmd := .StartAttack }

/-- `beginEnvelopeRelease`: arm the retry counter and store the
`StartRelease` command (bounds-checked). -/
def beginEnvelopeRelease (s : CtrlState) (i : Nat) : CtrlState :=
  if POLYPHONY_LIMIT ≤ i then s
  else
    let v := getVoice s i
    setVoice s i { v with retries := releaseRetryLimit, retryCountdown := 0, cmd := .StartRelease }

/-- `setSynthFreq`, restricted to the fields the allocator claims touch:
the phase counter is reset and the increment is set to the value the
floating-point frequency computation produces for key `x` (abstracted by
`incOf`; the waveform shape fields are outside the model). -/
def setSynthFreq (incOf : Nat → Nat) (s : CtrlState) (x : Nat) (channel : Nat) : CtrlState :=
  if channel = 0 then s
  else
    let v := getVoice s (channel - 1)
    setVoice s (channel - 1) { v with counter := 0, increment := incOf x }

/-- One iteration of the loop body of `processEnvelopeReleases` for voice
`i`: drain the `needsFree` flag, clear ownership and generation, detach
the owning key, and return the slot to the free-list in poly mode. -/
def drainVoice (cfg : Config) (s : CtrlState) (i : Nat) : CtrlState :=
  let v := getVoice s i
  if v.needsFree then
    let cleared : Voice :=
      { v with needsFree := false, inUse := false, generation := 0, owner := NO_SYNTH_OWNER, retries := 0, retryCountdown := 0 }
    let s1 := setVoice s i cleared
    let s2 : CtrlState :=
      if 0 ≤ v.owner ∧ v.owner < (cfg.btnCount : Int) then
        let o := v.owner.toNat
        let k := getKey s1 o
        if k.synthCh = i + 1 then setKey s1 o { k with synthCh := 0 } else s1
      else s1
    if cfg.playbackMode = SYNTH_POLY then { s2 with synthQueue := s2.synthQueue ++ [i + 1] }
    else s2
  else s

/-- `processEnvelopeReleases`. -/
def processEnvelopeReleases (cfg : Config) (s : CtrlState) : CtrlState :=
  (List.range POLYPHONY_LIMIT).foldl (drainVoice cfg) s

/-- One iteration of `retryPendingReleases` for voice `i`. -/
def retryVoice (s : CtrlState) (i : Nat) : CtrlState :=
  let v := getVoice s i
  if v.retries = 0 then s
  else if v.inUse = false then setVoice s i { v with retries := 0, retryCountdown := 0 }
  else if 0 < v.retryCountdown then setVoice s i { v with retryCountdown := v.retryCountdown - 1 }
  else
    setVoice s i
      { v with cmd := .StartRelease, retryCountdown := releaseRetryDelayLoops, retries := v.retries - 1 }

/-- `retryPendingReleases`. -/
def retryPendingReleases (s : CtrlState) : CtrlState :=
  (List.range POLYPHONY_LIMIT).foldl retryVoice s

/-- One step of the scan loop of `stealOldestSynthVoice`: skip voices not
in use, without a live owner, or with a zero generation; otherwise keep
the index with the strictly smallest generation seen so far.  The
accumulator is (`oldestIndex`, `oldestGeneration`), starting at
(none, `uint32` max). -/
def stealScanStep (s : CtrlState) (acc : Option Nat × Nat) (i : Nat) : Option Nat × Nat :=
  let v := getVoice s i
  if v.inUse = false then acc
  else if v.owner = NO_SYNTH_OWNER then acc
  else if v.generation = 0 then acc
  else if v.generation < acc.2 then (some i, v.generation) else acc

/-- `stealOldestSynthVoice`: returns (`channelOut`, `previousOwner`) on
success. -/
def stealOldestSynthVoice (s : CtrlState) : Option (Nat × Int) :=
  let r := (List.range POLYPHONY_LIMIT).foldl (stealScanStep s) (none, U32 - 1)
  match r.1 with
  | none => none
  | some idx => some (idx + 1, (getVoice s idx).owner)

/-- Common tail of both poly-mode paths of `trySynthNoteOn`: point key
`x` and voice `channel - 1` at each other, stamp a fresh generation,
bump the global counter, issue `StartAttack` and set the frequency. -/
def assignSynthChannel (incOf : Nat → Nat) (s : CtrlState) (x channel : Nat) : CtrlState :=
  let s2 := setKey s x { getKey s x with synthCh := channel }
  let s3 := setVoice s2 (channel - 1)
    { getVoice s2 (channel - 1) with owner := (x : Int), generation := s2.nextVoiceGeneration }
  let s4 : CtrlState := { s3 with nextVoiceGeneration := (s3.nextVoiceGeneration + 1) % U32 }
  let s5 := beginEnvelopeAttack s4 (channel - 1)
  setSynthFreq incOf s5 x channel

/-- `replaceMonoSynthWith` (mono/arpeggio mode only). -/
def replaceMonoSynthWith (incOf : Nat → Nat) (s : CtrlState) (x : Nat) : CtrlState :=
  if s.arpeggiatingNow = x then s
  else
    let s1 :=
      if s.arpeggiatingNow ≠ UNUSED_NOTE then
        setKey s s.arpeggiatingNow { getKey s s.arpeggiatingNow with synthCh := 0 }
      else s
    let s2 : CtrlState := { s1 with arpeggiatingNow := x }
    if x ≠ UNUSED_NOTE then
      let s3 := setKey s2 x { getKey s2 x with synthCh := 1 }
      let s4 := setVoice s3 0
        { getVoice s3 0 with owner := (x : Int), generation := s3.nextVoiceGeneration }
      let s5 : CtrlState := { s4 with nextVoiceGeneration := (s4.nextVoiceGeneration + 1) % U32 }
      setSynthFreq incOf (beginEnvelopeAttack s5 0) x 1
    else
      beginEnvelopeRelease (setVoice s2 0 { getVoice s2 0 with owner := NO_SYNTH_OWNER }) 0

/-- `findNextHeldNote` (mono/arpeggio mode only). -/
def findNextHeldNote (cfg : Config) (s : CtrlState) : Nat :=
  let cand := (List.range cfg.btnCount).map
    (fun i => (positiveMod ((s.arpeggiatingNow : Int) + (i : Int) + 1) (cfg.btnCount : Int)).toNat)
  (cand.find? (fun j => (getKey s j).MIDIch ≠ 0 && !(getKey s j).isCmd)).getD UNUSED_NOTE

/-- `trySynthNoteOn`. -/
def trySynthNoteOn (cfg : Config) (incOf : Nat → Nat) (s : CtrlState) (x : Nat) : CtrlState :=
  if cfg.playbackMode = SYNTH_OFF then s
  else if cfg.playbackMode = SYNTH_POLY then
    let s0 := processEnvelopeReleases cfg s
    match s0.synthQueue with
    | [] =>
      match stealOldestSynthVoice s0 with
      | none => { s0 with log := s0.log ++ [.allVoicesFiring] }
      | some t =>
        let stolen := t.1
        let prevOwner := t.2
        let s1 : CtrlState :=
          if 0 ≤ prevOwner ∧ prevOwner < (cfg.btnCount : Int) then
            let o := prevOwner.toNat
            let k := getKey s0 o
            if k.synthCh = stolen then setKey s0 o { k with synthCh := 0 } else s0
          else s0
        let s6 := assignSynthChannel incOf s1 x stolen
        { s6 with log := s6.log ++ [.stoleSynthChannel stolen] }
    | channel :: rest =>
      let s1 : CtrlState := { s0 with synthQueue := rest }
      let s6 := assignSynthChannel incOf s1 x channel
      { s6 with log := s6.log ++ [.poppedSynthChannel channel] }
  else
    if (getKey s x).MIDIch ≠ 0 then replaceMonoSynthWith incOf s x else s

/-- `trySynthNoteOff`. -/
def trySynthNoteOff (cfg : Config) (incOf : Nat → Nat) (s : CtrlState) (x : Nat) : CtrlState :=
  if cfg.playbackMode ≠ SYNTH_OFF ∧ cfg.playbackMode ≠ SYNTH_POLY then
    if s.arpeggiatingNow = x then replaceMonoSynthWith incOf s (findNextHeldNote cfg s) else s
  else if cfg.playbackMode ≠ SYNTH_POLY then s
  else
    let k := getKey s x
    if k.synthCh ≠ 0 then
      beginEnvelopeRelease (setKey s x { k with synthCh := 0 }) (k.synthCh - 1)
    else
      match (List.range POLYPHONY_LIMIT).find?
          (fun i => (getVoice s i).inUse && (getVoice s i).owner == (x : Int)) with
      | none => s
      | some i =>
        beginEnvelopeRelease (setVoice s i { getVoice s i with owner := NO_SYNTH_OWNER }) i

/-- One audio-core `poll()` pass over all voices (the envelope part):
each voice is ticked in index order, threading the shared generation
counter. -/
def tickState (p : EnvelopeParams) (s : CtrlState) : CtrlState :=
  let r := s.voices.foldl
    (fun (acc : List Voice × Nat) v =>
      let t := tickVoice p (v, acc.2)
      (acc.1 ++ [t.1], t.2))
    ([], s.nextVoiceGeneration)
  { s with voices := r.1, nextVoiceGeneration := r.2 }

/-- The static just-intonation ratio table, ordered simplest-first
(`std::vector<std::pair<byte, byte>> ratios`), transcribed entry for
entry including its duplicates. -/
def ratios : List (Nat × Nat) := [
  (1, 1), (1, 2), (2, 1), (3, 1), (1, 3), (1, 4), (2, 3), (1, 4), (4, 1), (3, 2),
  (1, 5), (5, 1), (5, 2), (1, 6), (3, 4), (5, 2), (4, 3), (6, 1), (2, 5), (5, 3),
  (1, 7), (7, 1), (3, 5), (2, 7), (8, 1), (5, 4), (1, 8), (4, 5), (7, 2), (9, 1),
  (7, 3), (1, 9), (3, 7), (1, 9), (1, 10), (10, 1), (7, 4), (3, 8), (8, 3), (6, 5),
  (1, 10), (8, 3), (4, 7), (2, 9), (9, 2), (5, 6), (11, 1), (7, 5), (1, 11), (5, 7),
  (5, 8), (3, 10), (4, 9), (3, 10), (2, 11), (11, 2), (12, 1), (1, 12), (9, 4), (5, 8),
  (1, 12), (8, 5), (10, 3), (6, 7), (7, 6), (12, 1), (9, 5), (1, 13), (3, 11), (11, 3),
  (9, 5), (5, 9), (13, 1), (14, 1), (13, 2), (11, 4), (1, 14), (2, 13), (8, 7), (7, 8),
  (4, 11), (9, 7), (11, 5), (7, 9), (5, 11), (13, 3), (3, 13), (15, 1), (1, 15), (4, 13),
  (2, 15), (10, 7), (2, 15), (11, 6), (8, 9), (16, 1), (12, 5), (3, 14), (7, 10), (5, 12),
  (14, 3), (9, 8), (15, 2), (13, 4), (1, 16), (6, 11), (17, 1), (1, 17), (5, 13), (13, 5),
  (4, 15), (17, 2), (9, 10), (2, 17), (9, 10), (12, 7), (10, 9), (11, 8), (16, 3), (3, 16),
  (13, 6), (14, 5), (15, 4), (18, 1), (8, 11), (1, 18), (4, 15), (5, 14), (6, 13), (7, 12),
  (19, 1), (11, 9), (17, 3), (3, 17), (9, 11), (1, 19), (5, 16), (20, 1), (8, 13), (10, 11),
  (20, 1), (19, 2), (1, 20), (11, 10), (2, 19), (13, 8), (17, 4), (4, 17), (16, 5), (1, 20),
  (13, 9), (21, 1), (7, 15), (9, 13), (19, 3), (17, 5), (3, 19), (5, 17), (15, 7), (1, 21),
  (13, 10), (3, 20), (12, 11), (21, 2), (18, 5), (6, 17), (15, 8), (3, 20), (20, 3), (19, 4),
  (5, 18), (14, 9), (9, 14), (8, 15), (2, 21), (1, 22), (17, 6), (22, 1), (10, 13), (11, 12),
  (4, 19), (5, 19), (1, 23), (19, 5), (23, 1), (18, 7), (8, 17), (21, 4), (22, 3), (3, 22),
  (7, 18), (6, 19), (12, 13), (19, 6), (2, 23), (9, 16), (17, 8), (24, 1), (13, 12), (1, 24),
  (23, 2), (4, 21), (16, 9), (9, 17), (1, 25), (5, 21), (25, 1), (15, 11), (17, 9), (3, 23),
  (23, 3), (11, 15), (21, 5), (17, 10), (10, 17), (19, 8), (5, 22), (20, 7), (22, 5), (23, 4),
  (7, 20), (1, 26), (8, 19), (25, 2), (26, 1), (2, 25), (4, 23), (5, 23), (9, 19), (1, 27),
  (13, 15), (3, 25), (15, 13), (23, 5), (19, 9), (27, 1), (25, 3), (25, 4), (14, 15), (27, 2),
  (9, 20), (2, 27), (26, 3), (20, 9), (17, 12), (1, 28), (24, 5), (10, 19), (12, 17), (23, 6),
  (21, 8), (11, 18), (19, 10), (5, 24), (4, 25), (5, 24), (3, 26), (18, 11), (28, 1), (8, 21),
  (6, 23), (15, 14), (1, 29), (29, 1), (23, 8), (24, 7), (7, 24), (6, 25), (10, 21), (30, 1),
  (5, 26), (25, 6), (11, 20), (30, 1), (1, 30), (16, 15), (8, 23), (4, 27), (2, 29), (26, 5),
  (9, 22), (29, 2), (27, 4), (28, 3), (15, 16), (20, 11), (18, 13), (22, 9), (21, 10), (13, 18),
  (12, 19), (19, 12), (3, 28), (17, 15), (15, 17), (29, 3), (31, 1), (27, 5), (3, 29), (9, 23),
  (23, 9), (1, 31), (5, 27), (13, 20), (2, 31), (28, 5), (1, 32), (29, 4), (25, 8), (20, 13),
  (4, 29), (8, 25), (23, 10), (10, 23), (5, 28), (31, 2), (32, 1), (33, 1), (3, 31), (1, 33),
  (5, 29), (15, 19), (9, 25), (31, 3), (19, 15), (25, 9), (29, 5), (33, 2), (6, 29), (17, 18),
  (34, 1), (2, 33), (32, 3), (26, 9), (31, 4), (27, 8), (1, 34), (4, 31), (18, 17), (29, 6),
  (8, 27), (12, 23), (11, 24), (3, 32), (9, 26), (23, 12), (24, 11), (5, 31), (31, 5), (35, 1),
  (1, 35), (1, 36), (30, 7), (24, 13), (18, 19), (36, 1), (6, 31), (28, 9), (34, 3), (36, 1),
  (15, 22), (7, 30), (8, 29), (1, 36), (17, 20), (29, 8), (4, 33), (12, 25), (10, 27), (32, 5),
  (20, 17), (3, 34), (25, 12), (5, 32), (2, 35), (33, 4), (22, 15), (9, 28), (13, 24), (27, 10),
  (35, 2), (19, 18), (31, 6), (9, 29), (35, 3), (29, 9), (5, 33), (23, 15), (33, 5), (15, 23),
  (37, 1), (3, 35), (1, 37), (10, 29), (31, 8), (5, 34), (4, 35), (1, 38), (35, 4), (29, 10),
  (34, 5), (37, 2), (2, 37), (19, 20), (8, 31), (20, 19), (38, 1), (31, 9), (39, 1), (37, 3),
  (3, 37), (9, 31), (1, 39), (38, 3), (11, 30), (9, 32), (26, 15), (31, 10), (29, 12), (32, 9),
  (20, 21), (2, 39), (35, 6), (33, 8), (5, 36), (37, 4), (21, 20), (15, 26), (40, 1), (8, 33),
  (10, 31), (30, 11), (12, 29), (23, 18), (17, 24), (36, 5), (40, 1), (1, 40), (4, 37), (24, 17),
  (39, 2), (6, 35), (18, 23), (3, 38), (41, 1), (37, 5), (5, 37), (1, 41), (33, 10), (3, 40),
  (4, 39), (1, 42), (37, 6), (13, 30), (12, 31), (42, 1), (10, 33), (7, 36), (36, 7), (9, 34),
  (41, 2), (35, 8), (40, 3), (8, 35), (5, 38), (2, 41), (39, 4), (38, 5)]

/-- `ratioToCents`, with the C `float` arithmetic idealised over `ℝ`. -/
noncomputable def ratioToCents (r : Real) : Real := 1200 * (Real.log r / Real.log 2)

/-- The ratio-search loop body of `justIntonationRetune` (lines
2741-2761), generic over a linearly ordered field so the scan itself is
an executable function of the cents values.  The accumulator holds
(`selectedRatio`, `deviation`); `none` models the initial
`deviation = INFINITY`, which every finite candidate improves on.  The
loop keeps the first strict improvement and stops (`break`) as soon as
the kept deviation is inside `errorThreshold` (`preferSmallRatios` is
`true` in the source). -/
def jiRatioScanAux {a : Type} [LinearOrderedField a] (cents : Nat × Nat → a) (thr e : a) :
    List (Nat × Nat) → Option ((Nat × Nat) × a) → Option ((Nat × Nat) × a)
  | [], acc => acc
  | r :: rest, acc =>
    let rc := cents r
    let keep : Bool :=
      match acc with
      | none => true
      | some b => decide (|rc - e| < |b.2|)
    if keep then
      let dev := e - rc
      if |dev| < thr then some (r, dev)
      else jiRatioScanAux cents thr e rest (some (r, dev))
    else jiRatioScanAux cents thr e rest acc

/-- The full ratio scan of `justIntonationRetune` for held reference
frequency `fRef` (`h[pressedKeyIDs[0]].frequency`) and new key frequency
`fNew` (`h[x].frequency`), with tuning step size `stepSize` in cents:
`errorThreshold = stepSize / 4`,
`EDOCents = ratioToCents(fRef / fNew)`, and each table entry is compared
through `ratioToCents(first / second)`. -/
noncomputable def justIntonationRatioScan (stepSize fRef fNew : Real) :
    Option ((Nat × Nat) × Real) :=
  jiRatioScanAux (fun r => ratioToCents ((r.1 : Real) / (r.2 : Real)))
    (stepSize / 4) (ratioToCents (fRef / fNew)) ratios none

/-- `clampMPEChannelRange`, as a function from the configured
(`mpeLowestChannel`, `mpeHighestChannel`) pair to the clamped pair. -/
def clampMPEChannelRange (low high : Nat) : Nat × Nat :=
  let low1 := if low < 2 then 2 else low
  let low2 := if 16 < low1 then 16 else low1
  let high1 := if high < 2 then 2 else high
  let high2 := if 16 < high1 then 16 else high1
  let high3 := if high2 < low2 then low2 else high2
  (low2, high3)

/-- `mpePlayableChannelCount` on an explicit range. -/
def mpePlayableChannelCountOf (low high : Nat) : Nat :=
  if high < low then 0 else high - low + 1

/-- The zone-advertisement slice of `resetTuningMIDI` (lines 2118-2137):
clamp the configured range, fall back to [2,2] if it is empty, then call
`setMPEzone(1, zoneSize)` with `zoneSize = mpeHighestChannel - 1` when
MPE is enabled (`MPEpitchBendsNeeded > 1`) and 0 otherwise.  Returns the
(master channel, zone size) pair advertised on the wire. -/
def resetTuningMIDIZone (pitchBendsNeeded low high : Nat) : Nat × Nat :=
  let r := clampMPEChannelRange low high
  let r2 := if mpePlayableChannelCountOf r.1 r.2 = 0 then (2, 2) else r
  if 1 < pitchBendsNeeded then
    (1, if 1 < r2.2 then r2.2 - 1 else 0)
  else (1, 0)

/-- The per-voice effect of `beginEnvelopeRelease`: arm the retry
counter and store the `StartRelease` command. -/
def beginEnvelopeReleaseVoice (v : Voice) : Voice :=
  { v with retries := releaseRetryLimit, retryCountdown := 0, cmd := .StartRelease }

/-- The freed shape a voice takes when the release path retires it:
level 0, stage `Idle`, oscillator increment and counter cleared,
`needsFree` raised (all other fields kept). -/
def freedVoice (v : Voice) : Voice :=
  { v with env := { v.env with level := 0, stage := .Idle }, increment := 0, counter := 0, needsFree := true }

/-- The shape a voice takes when the `StartRelease` command enters the
`Release` stage with increment `R`. -/
def releasingVoice (v : Voice) (R : Nat) : Voice :=
  { v with cmd := .None, env := { v.env with stage := .Release, releaseIncrement := R } }

/-- Configuration of specification scenario 3: MPE enabled
(`MPEpitchBendsNeeded = 255`), range [2, 16], pool discipline active. -/
def scenario3cfg : Config := { pitchBendsNeeded := 255, mpeChannelQueueActive := true }

/-- Initial state of scenario 3: 16 playable keys, the pool populated
with channels 2..16. -/
def scenario3start : CtrlState :=
  { keys := List.replicate 16 { note := 60 }
    mpeAvailableChannels := (List.range 15).map (· + 2) }

/-- The state of scenario 3 after pressing keys 0..14. -/
def scenario3after15 : CtrlState :=
  (List.range 15).foldl (fun s i => tryMIDInoteOn scenario3cfg (fun _ _ => 0) s i) scenario3start

/-- A concrete fully-occupied voice (for witnesses): in use, owned by
key `i`, generation `i + 10`, sustaining. -/
def c1voice (i : Nat) : Voice :=
  { inUse := true, owner := (i : Int), generation := i + 10, env := { stage := .Sustain, level := 30000 } }

/-- A concrete poly-mode state with all eight voices busy and an empty
free-list. -/
def c1state : CtrlState :=
  { keys := List.replicate 10 { note := 60 }
    synthQueue := []
    voices := (List.range 8).map c1voice
    nextVoiceGeneration := 50 }

/-- Number of keys whose assigned MIDI channel is `ch`. -/
def keysAssignedCount (s : CtrlState) (ch : Nat) : Nat :=
  s.keys.countP (fun k => k.MIDIch == ch)

/-- The channel-exclusivity invariant: every pooled channel lies in the
configured range, and each channel of the range is exactly once either
in the pool or assigned to a held key. -/
def ChannelInv (cfg : Config) (s : CtrlState) : Prop :=
  (∀ ch ∈ s.mpeAvailableChannels,
    cfg.mpeLowestChannel ≤ ch ∧ ch ≤ cfg.mpeHighestChannel) ∧
  (∀ ch, cfg.mpeLowestChannel ≤ ch → ch ≤ cfg.mpeHighestChannel →
    s.mpeAvailableChannels.count ch + keysAssignedCount s ch = 1)

/-- A small concrete MPE configuration (range [2, 3]) for witnesses. -/
def c3cfg : Config :=
  { pitchBendsNeeded := 255, mpeChannelQueueActive := true, mpeLowestChannel := 2, mpeHighestChannel := 3 }

/-- A concrete state with two playable keys and the full pool [2, 3]. -/
def c3state : CtrlState :=
  { keys := [{ note := 60 }, { note := 61 }], mpeAvailableChannels := [2, 3] }

/-- The cleared shape `processEnvelopeReleases` writes back when it
drains a voice's needs-free flag. -/
def clearedVoice (v : Voice) : Voice :=
  { v with needsFree := false, inUse := false, generation := 0, owner := NO_SYNTH_OWNER, retries := 0, retryCountdown := 0 }

/-- A concrete poly-mode MPE configuration with two playable keys, for
the round-trip development. -/
def c9cfg : Config :=
  { pitchBendsNeeded := 255, mpeChannelQueueActive := true, btnCount := 2 }

/-- Envelope parameters with instantaneous stages (release completes in
one tick). -/
def c9params : EnvelopeParams := {}

/-- A fully-occupied poly state: free-list empty, all eight voices in
use (owned by key 1, the oldest being voice 0), pool `[2]`. -/
def c9state : CtrlState :=
  { keys := [{ note := 60 }, { note := 62, synthCh := 1 }]
    mpeAvailableChannels := [2]
    synthQueue := []
    voices := (List.range 8).map (fun i => { inUse := true, owner := (1 : Int), generation := i + 1 })
    nextVoiceGeneration := 9 }

/-- A clean poly state: voice 1 on the free-list, every voice quiet. -/
def c9wstate : CtrlState :=
  { keys := [{ note := 60 }]
    mpeAvailableChannels := [2]
    synthQueue := [1]
    voices := List.replicate 8 {}
    nextVoiceGeneration := 1 }

/-! ## Helper lemmas about the state accessors -/

theorem getD_set_self {a : Type} (l : List a) (i : Nat) (v d : a) (h : i < l.length) :
    (l.set i v).getD i d = v := by
  simp [List.getD_eq_getElem?_getD, List.getElem?_set_self', List.getElem?_eq_getElem h]

theorem getD_set_ne {a : Type} (l : List a) (i j : Nat) (v d : a) (h : i ≠ j) :
    (l.set i v).getD j d = l.getD j d := by
  simp [List.getD_eq_getElem?_getD, List.getElem?_set_ne h]

theorem countP_set {a : Type} (l : List a) (i : Nat) (v d : a) (p : a → Bool)
    (h : i < l.length) :
    (l.set i v).countP p + (if p (l.getD i d) then 1 else 0) =
      l.countP p + (if p v then 1 else 0) := by
  induction l generalizing i with
  | nil => simp at h
  | cons x t ih =>
    cases i with
    | zero => simp [List.countP_cons]; omega
    | succ n =>
      simp only [List.set, List.countP_cons, List.getD_cons_succ]
      have := ih n (by simpa using h)
      omega

theorem countKeys_set (l : List Key) (i : Nat) (v : Key) (ch : Nat) (h : i < l.length) :
    (l.set i v).countP (fun k => k.MIDIch == ch) +
      (if (l.getD i {}).MIDIch = ch then 1 else 0) =
    l.countP (fun k => k.MIDIch == ch) + (if v.MIDIch = ch then 1 else 0) := by
  induction l generalizing i with
  | nil => simp at h
  | cons a t ih =>
    cases i with
    | zero =>
      simp only [List.set, List.countP_cons, List.getD_cons_zero]
      by_cases h1 : a.MIDIch = ch <;> by_cases h2 : v.MIDIch = ch <;>
        simp [h1, h2] <;> omega
    | succ n =>
      simp only [List.set, List.countP_cons, List.getD_cons_succ]
      have hih := ih n (by simpa using h)
      by_cases h1 : a.MIDIch = ch <;> simp [h1] at hih ⊢ <;> omega

theorem getKey_setKey_self (s : CtrlState) (x : Nat) (k : Key) (h : x < s.keys.length) :
    getKey (setKey s x k) x = k := by
  simp [getKey, setKey, List.getD_eq_getElem?_getD, List.getElem?_set_self', List.getElem?_eq_getElem h]

theorem getKey_setKey_ne (s : CtrlState) (x y : Nat) (k : Key) (h : x ≠ y) :
    getKey (setKey s x k) y = getKey s y := by
  simp [getKey, setKey, List.getD_eq_getElem?_getD, List.getElem?_set_ne h]

theorem getVoice_setVoice_self (s : CtrlState) (i : Nat) (v : Voice) (h : i < s.voices.length) :
    getVoice (setVoice s i v) i = v := by
  simp [getVoice, setVoice, List.getD_eq_getElem?_getD, List.getElem?_set_self', List.getElem?_eq_getElem h]

theorem getVoice_setVoice_ne (s : CtrlState) (i j : Nat) (v : Voice) (h : i ≠ j) :
    getVoice (setVoice s i v) j = getVoice s j := by
  simp [getVoice, setVoice, List.getD_eq_getElem?_getD, List.getElem?_set_ne h]

theorem getKey_setVoice (s : CtrlState) (i : Nat) (v : Voice) (y : Nat) :
    getKey (setVoice s i v) y = getKey s y := rfl

theorem getVoice_setKey (s : CtrlState) (x : Nat) (k : Key) (j : Nat) :
    getVoice (setKey s x k) j = getVoice s j := rfl

/-! ## C6: pitch-bend range -/

theorem combinedPitchBend_bounds (b j : Int) :
    -8192 ≤ combinedPitchBend b j ∧ combinedPitchBend b j ≤ 8191 := by
  unfold combinedPitchBend
  dsimp only
  split_ifs with h1 h2 <;> omega

/-- Claim C6: every pitch-bend value computed for sending with a note-on
(the key's stored bend plus its just-intonation retune, as combined by
`combinedPitchBend` inside `tryMIDInoteOn`) lies in the 14-bit signed
range: every pitch-bend message newly emitted by `tryMIDInoteOn`
satisfies `-8192 ≤ bend ≤ 8191`. -/
theorem assignMIDIChannelOnPress_msgs (cfg : Config) (s : CtrlState) (x : Nat) (k : Key) :
    (assignMIDIChannelOnPress cfg s x k).msgs = s.msgs := by
  unfold assignMIDIChannelOnPress
  dsimp only
  split_ifs <;> rfl

theorem sendNoteOnMessages_msgs (cfg : Config) (ji : CtrlState → Nat → Int)
    (s1 : CtrlState) (x : Nat) :
    ∃ tail : List Msg,
      (sendNoteOnMessages cfg ji s1 x).msgs = s1.msgs ++ tail ∧
      ∀ v : Int, ∀ ch : Nat, Msg.pitchBend v ch ∈ tail → -8192 ≤ v ∧ v ≤ 8191 := by
  unfold sendNoteOnMessages
  dsimp only
  split
  · refine ⟨_, rfl, ?_⟩
    intro v ch hm
    rcases List.mem_append.1 hm with hpb | hlast
    · split at hpb
      · rcases List.mem_append.1 hpb with hpb1 | hextra
        · simp only [List.mem_singleton, Msg.pitchBend.injEq] at hpb1
          rcases hpb1 with ⟨rfl, rfl⟩
          exact combinedPitchBend_bounds _ _
        · split at hextra <;> simp_all
      · simp at hpb
    · simp at hlast
  · exact ⟨[], by simp, by simp⟩

/-- Claim C6: every pitch-bend value computed for sending with a note-on
(the key's stored bend plus its just-intonation retune, as combined by
`combinedPitchBend` inside `sendNoteOnMessages`) lies in the 14-bit
signed range: every pitch-bend message newly emitted by `tryMIDInoteOn`
satisfies `-8192 ≤ bend ≤ 8191`. -/
theorem noteOn_pitch_bend_in_range (cfg : Config) (ji : CtrlState → Nat → Int)
    (s : CtrlState) (x : Nat) (v : Int) (ch : Nat)
    (hm : Msg.pitchBend v ch ∈ (tryMIDInoteOn cfg ji s x).msgs.drop s.msgs.length) :
    -8192 ≤ v ∧ v ≤ 8191 := by
  unfold tryMIDInoteOn at hm
  dsimp only at hm
  split at hm
  · simp at hm
  · split at hm
    · simp at hm
    · obtain ⟨tail, heq, hbound⟩ :=
        sendNoteOnMessages_msgs cfg ji (assignMIDIChannelOnPress cfg s x (getKey s x)) x
      rw [heq, assignMIDIChannelOnPress_msgs, List.drop_left] at hm
      exact hbound v ch hm

/-- Witness for C6 at a concrete emitting state: pressing key 0 with an
MPE pool `[2]` emits a pitch-bend message, and its value is in range. -/
theorem noteOn_pitch_bend_in_range_witness :
    Msg.pitchBend 0 2 ∈
      (tryMIDInoteOn { pitchBendsNeeded := 255, mpeChannelQueueActive := true } (fun _ _ => 0)
        { keys := [{ note := 60 }], mpeAvailableChannels := [2] } 0).msgs.drop
        ({ keys := [{ note := 60 }], mpeAvailableChannels := [2] } : CtrlState).msgs.length ∧
    -8192 ≤ (0 : Int) ∧ (0 : Int) ≤ 8191 :=
  ⟨by decide,
   noteOn_pitch_bend_in_range { pitchBendsNeeded := 255, mpeChannelQueueActive := true }
     (fun _ _ => 0) { keys := [{ note := 60 }], mpeAvailableChannels := [2] } 0 0 2 (by decide)⟩

/-! ## C5: zero attack and decay reach sustain in the consuming tick -/

/-- Claim C5: with configured attack time 0, decay time 0 and sustain
level 100% (sustain byte 127), a pending `StartAttack` command on a
fresh (idle, level-0) voice leaves the envelope in the `Sustain` stage
at the maximum level after the very tick that consumes the command. -/
theorem zero_attack_reaches_sustain_same_tick (r g : Nat) (v : Voice)
    (hcmd : v.cmd = .StartAttack)
    (hstage : v.env.stage = .Idle) (hlevel : v.env.level = 0) :
    ((tickVoice (envelopeParamsFromSettings 0 0 127 r) (v, g)).1).env.stage = .Sustain ∧
    ((tickVoice (envelopeParamsFromSettings 0 0 127 r) (v, g)).1).env.level = envelopeMaxLevel := by
  cases v with
  | mk env cmd inUse needsFree gen owner inc cnt rt rc =>
    cases env with
    | mk level relInc stage =>
      simp only at hcmd hstage hlevel
      subst hcmd
      subst hstage
      subst hlevel
      simp only [tickVoice, applyCommand, advanceStage, envelopeParamsFromSettings,
        ticksFromMicros, envelopeMaxLevel]
      norm_num
      split_ifs <;> simp_all

/-- Witness for C5 at the default fresh voice. -/
theorem zero_attack_reaches_sustain_same_tick_witness :
    ({ cmd := .StartAttack } : Voice).cmd = .StartAttack ∧
    ({ cmd := .StartAttack } : Voice).env.stage = .Idle ∧
    ({ cmd := .StartAttack } : Voice).env.level = 0 ∧
    (((tickVoice (envelopeParamsFromSettings 0 0 127 0)
        (({ cmd := .StartAttack } : Voice), 1)).1).env.stage = .Sustain ∧
     ((tickVoice (envelopeParamsFromSettings 0 0 127 0)
        (({ cmd := .StartAttack } : Voice), 1)).1).env.level = envelopeMaxLevel) :=
  ⟨rfl, rfl, rfl,
    zero_attack_reaches_sustain_same_tick 0 1 { cmd := .StartAttack } rfl rfl rfl⟩

/-! ## C8: advertised MPE zone size -/

/-- Counterexample to claim C8: with MPE enabled and the configured range
[2, 16], the zone advertised by `resetTuningMIDIZone` has size
`16 - 1 = 15`, not `high - low = 14`. -/
theorem zone_size_counterexample :
    resetTuningMIDIZone 255 2 16 = (1, 15) ∧ (15 : Nat) ≠ 16 - 2 := by
  decide

/-- Claim C8 as amended: when per-note pitch bend is required
(`MPEpitchBendsNeeded > 1`) and the configured range [low, high] is
already within bounds (2 ≤ low ≤ high ≤ 16), the zone advertised to the
receiver has master channel 1 and size `high - 1` (covering member
channels 2..high); the configured lower bound does not shrink the
advertised zone. -/
theorem zone_size_amended (needed low high : Nat) (h2 : 2 ≤ low) (hlh : low ≤ high)
    (h16 : high ≤ 16) (hmpe : 1 < needed) :
    resetTuningMIDIZone needed low high = (1, high - 1) := by
  have hcl : clampMPEChannelRange low high = (low, high) := by
    simp only [clampMPEChannelRange]
    rw [if_neg (by omega : ¬ low < 2), if_neg (by omega : ¬ 16 < low),
      if_neg (by omega : ¬ high < 2), if_neg (by omega : ¬ 16 < high),
      if_neg (by omega : ¬ high < low)]
  have hcnt : mpePlayableChannelCountOf low high ≠ 0 := by
    unfold mpePlayableChannelCountOf
    split <;> omega
  simp only [resetTuningMIDIZone, hcl]
  rw [if_neg hcnt, if_pos hmpe, if_pos (by omega : 1 < high)]

/-- Witness for the amended C8 at the range [2, 16]. -/
theorem zone_size_amended_witness :
    2 ≤ 2 ∧ 2 ≤ 16 ∧ 16 ≤ 16 ∧ 1 < 255 ∧ resetTuningMIDIZone 255 2 16 = (1, 16 - 1) :=
  ⟨by decide, by decide, by decide, by decide,
   zone_size_amended 255 2 16 (by decide) (by decide) (by decide) (by decide)⟩

/-! ## C10: note-off pops the last pressed key, not the released one -/

/-- Claim C10: `tryMIDInoteOff` always removes the last element of
`pressedKeyIDs` regardless of which key is released: if keys `a` then
`b` were pressed (so the stack ends `[..., a, b]`) and `a` is released
first, the stack afterwards still contains the entry for `a` and no
longer contains the entry for `b`. -/
theorem noteOff_pops_last_pressed (cfg : Config) (s : CtrlState) (l : List Nat) (a b : Nat)
    (hstack : s.pressedKeyIDs = l ++ [a, b])
    (hheld : (getKey s a).MIDIch ≠ 0)
    (hab : a ≠ b) (hbl : b ∉ l) :
    (tryMIDInoteOff cfg s a).pressedKeyIDs = l ++ [a] ∧
    a ∈ (tryMIDInoteOff cfg s a).pressedKeyIDs ∧
    b ∉ (tryMIDInoteOff cfg s a).pressedKeyIDs := by
  have hdrop : (tryMIDInoteOff cfg s a).pressedKeyIDs = s.pressedKeyIDs.dropLast := by
    unfold tryMIDInoteOff
    dsimp only
    rw [if_neg hheld]
    unfold setKey
    dsimp only
    split <;> rfl
  have hres : (tryMIDInoteOff cfg s a).pressedKeyIDs = l ++ [a] := by
    rw [hdrop, hstack]
    have : l ++ [a, b] = (l ++ [a]) ++ [b] := by simp
    rw [this, List.dropLast_concat]
  refine ⟨hres, ?_, ?_⟩
  · rw [hres]; simp
  · rw [hres]
    simp only [List.mem_append, List.mem_singleton]
    rintro (hb | hb)
    · exact hbl hb
    · exact hab hb.symm

/-- Witness for C10: keys 3 then 7 pressed, key 3 released. -/
theorem noteOff_pops_last_pressed_witness :
    ((({ keys := List.replicate 8 { note := 60, MIDIch := 2 }, pressedKeyIDs := [3, 7] } :
        CtrlState).pressedKeyIDs = [] ++ [3, 7]) ∧
      (getKey { keys := List.replicate 8 { note := 60, MIDIch := 2 }, pressedKeyIDs := [3, 7] }
        3).MIDIch ≠ 0) ∧
    (tryMIDInoteOff {}
        { keys := List.replicate 8 { note := 60, MIDIch := 2 }, pressedKeyIDs := [3, 7] }
        3).pressedKeyIDs = [] ++ [3] ∧
    3 ∈ (tryMIDInoteOff {}
        { keys := List.replicate 8 { note := 60, MIDIch := 2 }, pressedKeyIDs := [3, 7] }
        3).pressedKeyIDs ∧
    7 ∉ (tryMIDInoteOff {}
        { keys := List.replicate 8 { note := 60, MIDIch := 2 }, pressedKeyIDs := [3, 7] }
        3).pressedKeyIDs :=
  ⟨⟨by decide, by decide⟩,
   noteOff_pops_last_pressed {}
     { keys := List.replicate 8 { note := 60, MIDIch := 2 }, pressedKeyIDs := [3, 7] }
     [] 3 7 (by decide) (by decide) (by decide) (by decide)⟩

/-! ## C4: empty MPE pool drops the note -/

theorem tryMIDInoteOn_pool_empty_eq (cfg : Config) (ji : CtrlState → Nat → Int)
    (s : CtrlState) (x : Nat)
    (hnote : (getKey s x).note < 128)
    (hch : (getKey s x).MIDIch = 0)
    (hneeded : cfg.pitchBendsNeeded ≠ 1)
    (havail : mpePlayableChannelCount cfg ≠ 0)
    (hactive : cfg.mpeChannelQueueActive = true)
    (hpool : s.mpeAvailableChannels = []) :
    tryMIDInoteOn cfg ji s x = { s with log := s.log ++ [.mpePoolEmpty] } := by
  have hassign : assignMIDIChannelOnPress cfg s x (getKey s x) =
      { s with log := s.log ++ [.mpePoolEmpty] } := by
    unfold assignMIDIChannelOnPress
    dsimp only
    rw [if_neg hneeded, if_neg havail, if_pos hactive, hpool]
    rfl
  unfold tryMIDInoteOn
  dsimp only
  rw [if_neg (by omega), if_neg (not_ne_iff.mpr hch), hassign]
  unfold sendNoteOnMessages
  dsimp only
  have hch2 : (getKey { s with log := s.log ++ [.mpePoolEmpty] } x).MIDIch = 0 := hch
  rw [if_neg (not_ne_iff.mpr hch2)]

/-- The analogous no-configured-channels branch: also a pure drop. -/
theorem tryMIDInoteOn_no_channels_eq (cfg : Config) (ji : CtrlState → Nat → Int)
    (s : CtrlState) (x : Nat)
    (hnote : (getKey s x).note < 128)
    (hch : (getKey s x).MIDIch = 0)
    (hneeded : cfg.pitchBendsNeeded ≠ 1)
    (havail : mpePlayableChannelCount cfg = 0) :
    tryMIDInoteOn cfg ji s x = { s with log := s.log ++ [.noMPEChannelsConfigured] } := by
  have hassign : assignMIDIChannelOnPress cfg s x (getKey s x) =
      { s with log := s.log ++ [.noMPEChannelsConfigured] } := by
    unfold assignMIDIChannelOnPress
    dsimp only
    rw [if_neg hneeded, if_pos havail]
  unfold tryMIDInoteOn
  dsimp only
  rw [if_neg (by omega), if_neg (not_ne_iff.mpr hch), hassign]
  unfold sendNoteOnMessages
  dsimp only
  have hch2 : (getKey { s with log := s.log ++ [.noMPEChannelsConfigured] } x).MIDIch = 0 := hch
  rw [if_neg (not_ne_iff.mpr hch2)]

/-- Claim C4: when a note-on needs an MPE channel (pool discipline
active) and the pool is empty, the note is dropped, not stolen: the
state is unchanged except for the logged `mpePoolEmpty` event — no key
record changes, no message is sent, the key stays unassigned. -/
theorem mpe_pool_empty_drops_note (cfg : Config) (ji : CtrlState → Nat → Int)
    (s : CtrlState) (x : Nat)
    (hnote : (getKey s x).note < 128)
    (hch : (getKey s x).MIDIch = 0)
    (hneeded : cfg.pitchBendsNeeded ≠ 1)
    (havail : mpePlayableChannelCount cfg ≠ 0)
    (hactive : cfg.mpeChannelQueueActive = true)
    (hpool : s.mpeAvailableChannels = []) :
    tryMIDInoteOn cfg ji s x = { s with log := s.log ++ [.mpePoolEmpty] } :=
  tryMIDInoteOn_pool_empty_eq cfg ji s x hnote hch hneeded havail hactive hpool

/-- Witness for C4, realising scenario 3 of the specification: MPE
enabled with range [2, 16] (15 channels) and 16 keys; after the first 15
presses the pool is empty, and the 16th press is dropped with no channel
assigned and no message sent. -/
theorem mpe_pool_empty_drops_note_witness :
    (getKey scenario3after15 15).note < 128 ∧
    (getKey scenario3after15 15).MIDIch = 0 ∧
    scenario3after15.mpeAvailableChannels = [] ∧
    tryMIDInoteOn scenario3cfg (fun _ _ => 0) scenario3after15 15 =
      { scenario3after15 with log := scenario3after15.log ++ [.mpePoolEmpty] } :=
  ⟨by decide, by decide, by decide,
   mpe_pool_empty_drops_note scenario3cfg (fun _ _ => 0) scenario3after15 15
     (by decide) (by decide) (by decide) (by decide) (by decide) (by decide)⟩

/-! ## C2: release convergence -/

theorem tickVoice_freed_fix (p : EnvelopeParams) (v : Voice) (g : Nat)
    (hc : v.cmd = .None) (hs : v.env.stage = .Idle) (hi : v.increment = 0) :
    tickVoice p (v, g) = (v, g) := by
  simp [tickVoice, applyCommand, hc, hs, hi]

theorem freed_fix_iter (p : EnvelopeParams) (v : Voice) (g : Nat) (m : Nat)
    (hc : v.cmd = .None) (hs : v.env.stage = .Idle) (hi : v.increment = 0) :
    (tickVoice p)^[m] (v, g) = (v, g) :=
  Function.iterate_fixed (tickVoice_freed_fix p v g hc hs hi) m

/-- A commandless `Release`-stage voice whose level is within one
increment frees itself this tick. -/
theorem tickVoice_release_free (p : EnvelopeParams) (v : Voice) (g : Nat)
    (hc : v.cmd = .None) (hs : v.env.stage = .Release)
    (hle : p.releaseTicks = 0 ∨ v.env.releaseIncrement = 0 ∨
      v.env.level ≤ v.env.releaseIncrement) :
    tickVoice p (v, g) = (freedVoice v, g) := by
  simp only [tickVoice, applyCommand, hc]
  rw [if_neg (by simp [hs])]
  simp only [advanceStage, hs]
  rw [if_pos hle]
  simp [hs, freedVoice]

/-- Otherwise it just subtracts the release increment (the phase counter
may advance). -/
theorem tickVoice_release_step (p : EnvelopeParams) (v : Voice) (g : Nat)
    (hc : v.cmd = .None) (hs : v.env.stage = .Release)
    (hgt : ¬(p.releaseTicks = 0 ∨ v.env.releaseIncrement = 0 ∨
      v.env.level ≤ v.env.releaseIncrement)) :
    ∃ cnt, tickVoice p (v, g) =
      ({ v with env := { v.env with level := v.env.level - v.env.releaseIncrement }, counter := cnt }, g) := by
  simp only [tickVoice, applyCommand, hc]
  rw [if_neg (by simp [hs])]
  simp only [advanceStage, hs]
  rw [if_neg hgt]
  split
  · next hcon =>
    exfalso
    revert hcon
    simp [hs]
  · split
    · exact ⟨v.counter, by simp [hc]⟩
    · exact ⟨(v.counter + v.increment) % 65536, by simp [hc]⟩

/-- After `k ≥ 1` ticks, a commandless `Release`-stage voice whose level
is at most `k` release increments is freed: level 0, stage `Idle`,
increment 0, `needsFree` set. -/
theorem release_stage_converges (p : EnvelopeParams) :
    ∀ (k : Nat) (v : Voice) (g : Nat), 1 ≤ k →
    v.cmd = .None → v.env.stage = .Release →
    v.env.level ≤ k * v.env.releaseIncrement →
    (((tickVoice p)^[k] (v, g)).1).env.level = 0 ∧
    (((tickVoice p)^[k] (v, g)).1).env.stage = .Idle ∧
    (((tickVoice p)^[k] (v, g)).1).increment = 0 ∧
    (((tickVoice p)^[k] (v, g)).1).needsFree = true := by
  intro k
  induction k with
  | zero => intro v g h1; omega
  | succ m ih =>
    intro v g _ hc hs hlev
    by_cases hfree : p.releaseTicks = 0 ∨ v.env.releaseIncrement = 0 ∨
        v.env.level ≤ v.env.releaseIncrement
    · rw [Function.iterate_succ_apply, tickVoice_release_free p v g hc hs hfree,
        freed_fix_iter p (freedVoice v) g m hc rfl rfl]
      exact ⟨rfl, rfl, rfl, rfl⟩
    · obtain ⟨cnt, hstep⟩ := tickVoice_release_step p v g hc hs hfree
      rw [Function.iterate_succ_apply, hstep]
      have hm1 : 1 ≤ m := by
        by_contra hm
        have hm0 : m = 0 := by omega
        subst hm0
        push_neg at hfree
        omega
      refine ih _ g hm1 hc hs ?_
      push_neg at hfree
      simp only []
      have hmul : (m + 1) * v.env.releaseIncrement = m * v.env.releaseIncrement + v.env.releaseIncrement := by ring
      omega

/-- `releaseTicks` ticks of the computed release increment cover the
starting level: `L ≤ R * max 1 (ceil (L / R))`. -/
theorem level_le_ticks_mul_inc (L R : Nat) (hR : 1 ≤ R) :
    L ≤ R * max 1 ((L + R - 1) / R) := by
  have h1 := Nat.div_add_mod (L + R - 1) R
  have h2 : (L + R - 1) % R < R := Nat.mod_lt _ (by omega)
  have h3 : L ≤ R * ((L + R - 1) / R) := by omega
  calc L ≤ R * ((L + R - 1) / R) := h3
    _ ≤ R * max 1 ((L + R - 1) / R) := Nat.mul_le_mul_left _ (Nat.le_max_right _ _)

/-- From any voice with a pending `StartRelease`, running
`n` ticks with `n ≥ releaseTicks` and `n ≥ 1` frees the voice. -/
theorem startRelease_ticks_free (p : EnvelopeParams) (v : Voice) (g : Nat) (n : Nat)
    (hcmd : v.cmd = .StartRelease) (hn1 : 1 ≤ n) (hn : p.releaseTicks ≤ n) :
    (((tickVoice p)^[n] (v, g)).1).env.level = 0 ∧
    (((tickVoice p)^[n] (v, g)).1).env.stage = .Idle ∧
    (((tickVoice p)^[n] (v, g)).1).increment = 0 ∧
    (((tickVoice p)^[n] (v, g)).1).needsFree = true := by
  obtain ⟨m, rfl⟩ : ∃ m, n = m + 1 := ⟨n - 1, by omega⟩
  rw [Function.iterate_succ_apply]
  by_cases hquick : p.releaseTicks = 0 ∨ v.env.level = 0
  · have htick : tickVoice p (v, g) = ({ freedVoice v with cmd := .None }, g) := by
      simp only [tickVoice, applyCommand, hcmd]
      rw [if_pos hquick]
      simp [freedVoice]
    rw [htick, freed_fix_iter p ({ freedVoice v with cmd := .None }) g m rfl rfl rfl]
    exact ⟨rfl, rfl, rfl, rfl⟩
  · push_neg at hquick
    obtain ⟨hrt, hlev⟩ := hquick
    have hR : 1 ≤ p.releaseTicks := by omega
    set R := max 1 ((v.env.level + p.releaseTicks - 1) / p.releaseTicks) with hRdef
    have hcover : v.env.level ≤ p.releaseTicks * R := level_le_ticks_mul_inc _ _ hR
    have happly : applyCommand p (v, g) = (releasingVoice v R, g) := by
      simp only [applyCommand, hcmd]
      rw [if_neg (by push_neg; exact ⟨hrt, hlev⟩)]
      rfl
    have happly2 : applyCommand p (releasingVoice v R, g) = (releasingVoice v R, g) := rfl
    have htick : tickVoice p (v, g) = tickVoice p (releasingVoice v R, g) := by
      unfold tickVoice
      rw [happly, happly2]
    rw [htick]
    by_cases hfree : p.releaseTicks = 0 ∨ (releasingVoice v R).env.releaseIncrement = 0 ∨
        (releasingVoice v R).env.level ≤ (releasingVoice v R).env.releaseIncrement
    · rw [tickVoice_release_free p (releasingVoice v R) g rfl rfl hfree,
        freed_fix_iter p (freedVoice (releasingVoice v R)) g m rfl rfl rfl]
      exact ⟨rfl, rfl, rfl, rfl⟩
    · obtain ⟨cnt, hstep⟩ := tickVoice_release_step p (releasingVoice v R) g rfl rfl hfree
      rw [hstep]
      have hm1 : 1 ≤ m := by
        by_contra hm
        have hm0 : m = 0 := by omega
        subst hm0
        have hRt1 : p.releaseTicks = 1 := by omega
        push_neg at hfree
        have hlevR : v.env.level ≤ R := by
          calc v.env.level ≤ p.releaseTicks * R := hcover
            _ = R := by rw [hRt1, Nat.one_mul]
        exact absurd hlevR (by simpa [releasingVoice] using hfree.2.2)
      refine release_stage_converges p m _ g hm1 rfl rfl ?_
      show (releasingVoice v R).env.level - R ≤ m * R
      have hRm : p.releaseTicks ≤ m + 1 := hn
      have hbig : v.env.level ≤ (m + 1) * R := by
        calc v.env.level ≤ p.releaseTicks * R := hcover
          _ ≤ (m + 1) * R := Nat.mul_le_mul_right _ hRm
      have hmul : (m + 1) * R = m * R + R := by ring
      show v.env.level - R ≤ m * R
      omega

/-- Claim C2: for every voice in any non-idle stage at any level,
issuing `StartRelease` (`beginEnvelopeReleaseVoice`) and then running
the audio tick at least `ceil (release time / tick interval)` times —
and at least once, so the command is consumed — drives the envelope
level to exactly 0, sets the stage to `Idle`, zeroes the oscillator
increment, and sets the needs-free flag by which the control core frees
the slot. -/
theorem release_convergence (relMicros : Nat) (p : EnvelopeParams) (v : Voice) (g n : Nat)
    (hp : p.releaseTicks = ticksFromMicros relMicros)
    (hstage : v.env.stage ≠ .Idle)
    (hn1 : 1 ≤ n) (hn : ticksFromMicros relMicros ≤ n) :
    (((tickVoice p)^[n] (beginEnvelopeReleaseVoice v, g)).1).env.level = 0 ∧
    (((tickVoice p)^[n] (beginEnvelopeReleaseVoice v, g)).1).env.stage = .Idle ∧
    (((tickVoice p)^[n] (beginEnvelopeReleaseVoice v, g)).1).increment = 0 ∧
    (((tickVoice p)^[n] (beginEnvelopeReleaseVoice v, g)).1).needsFree = true :=
  startRelease_ticks_free p (beginEnvelopeReleaseVoice v) g n rfl hn1 (hp ▸ hn)

/-- Witness for C2: a sustaining voice at level 40000 with release time
5 ms (209 ticks), run for 209 ticks. -/
theorem release_convergence_witness :
    (envelopeParamsFromSettings 0 0 127 5000).releaseTicks = ticksFromMicros 5000 ∧
    ({ env := { level := 40000, stage := .Sustain } } : Voice).env.stage ≠ .Idle ∧
    (1 : Nat) ≤ 209 ∧ ticksFromMicros 5000 ≤ 209 ∧
    ((((tickVoice (envelopeParamsFromSettings 0 0 127 5000))^[209]
        (beginEnvelopeReleaseVoice { env := { level := 40000, stage := .Sustain } }, 1)).1).env.level = 0 ∧
     (((tickVoice (envelopeParamsFromSettings 0 0 127 5000))^[209]
        (beginEnvelopeReleaseVoice { env := { level := 40000, stage := .Sustain } }, 1)).1).env.stage = .Idle ∧
     (((tickVoice (envelopeParamsFromSettings 0 0 127 5000))^[209]
        (beginEnvelopeReleaseVoice { env := { level := 40000, stage := .Sustain } }, 1)).1).increment = 0 ∧
     (((tickVoice (envelopeParamsFromSettings 0 0 127 5000))^[209]
        (beginEnvelopeReleaseVoice { env := { level := 40000, stage := .Sustain } }, 1)).1).needsFree = true) :=
  ⟨rfl, by decide, by decide, by decide,
   release_convergence 5000 (envelopeParamsFromSettings 0 0 127 5000)
     { env := { level := 40000, stage := .Sustain } } 1 209 rfl (by decide) (by decide) (by decide)⟩

/-! ## C1: stealing picks the oldest generation -/

theorem drainVoice_id (cfg : Config) (s : CtrlState) (i : Nat)
    (h : (getVoice s i).needsFree = false) : drainVoice cfg s i = s := by
  unfold drainVoice
  rw [if_neg (by simp [h])]

theorem foldl_drainVoice_id (cfg : Config) :
    ∀ (L : List Nat) (s : CtrlState),
    (∀ i ∈ L, (getVoice s i).needsFree = false) →
    L.foldl (drainVoice cfg) s = s := by
  intro L
  induction L with
  | nil => intro s _; rfl
  | cons i t ih =>
    intro s h
    rw [List.foldl_cons, drainVoice_id cfg s i (h i (by simp))]
    exact ih s (fun j hj => h j (by simp [hj]))

theorem processEnvelopeReleases_id (cfg : Config) (s : CtrlState)
    (h : ∀ i, i < POLYPHONY_LIMIT → (getVoice s i).needsFree = false) :
    processEnvelopeReleases cfg s = s :=
  foldl_drainVoice_id cfg _ s (fun i hi => h i (List.mem_range.1 hi))

/-- Characterisation of the scan loop of `stealOldestSynthVoice`: the
accumulator's generation only decreases, ends below every qualifying
generation in the scanned list, and the final accumulator is either the
initial one or names a qualifying index holding its own generation. -/
theorem stealScan_spec (s : CtrlState) :
    ∀ (L : List Nat) (b : Option Nat) (m : Nat),
    (L.foldl (stealScanStep s) (b, m)).2 ≤ m ∧
    (∀ i ∈ L, (getVoice s i).inUse = true → (getVoice s i).owner ≠ NO_SYNTH_OWNER →
      (getVoice s i).generation ≠ 0 →
      (L.foldl (stealScanStep s) (b, m)).2 ≤ (getVoice s i).generation) ∧
    ((L.foldl (stealScanStep s) (b, m)) = (b, m) ∨
      ∃ j ∈ L, (getVoice s j).inUse = true ∧ (getVoice s j).owner ≠ NO_SYNTH_OWNER ∧
        (getVoice s j).generation ≠ 0 ∧
        (L.foldl (stealScanStep s) (b, m)) = (some j, (getVoice s j).generation)) := by
  intro L
  induction L with
  | nil => intro b m; exact ⟨le_refl _, by simp, Or.inl rfl⟩
  | cons i t ih =>
    intro b m
    rw [List.foldl_cons]
    by_cases hu : (getVoice s i).inUse = true
    · by_cases ho : (getVoice s i).owner = NO_SYNTH_OWNER
      · have hstep : stealScanStep s (b, m) i = (b, m) := by
          unfold stealScanStep
          rw [if_neg (by simp [hu]), if_pos ho]
        rw [hstep]
        obtain ⟨h1, h2, h3⟩ := ih b m
        refine ⟨h1, ?_, ?_⟩
        · intro j hj hju hjo hjg
          rcases List.mem_cons.1 hj with rfl | hjt
          · exact absurd ho hjo
          · exact h2 j hjt hju hjo hjg
        · rcases h3 with h3 | ⟨j, hj, rest⟩
          · exact Or.inl h3
          · exact Or.inr ⟨j, List.mem_cons_of_mem _ hj, rest⟩
      · by_cases hg : (getVoice s i).generation = 0
        · have hstep : stealScanStep s (b, m) i = (b, m) := by
            unfold stealScanStep
            rw [if_neg (by simp [hu]), if_neg ho, if_pos hg]
          rw [hstep]
          obtain ⟨h1, h2, h3⟩ := ih b m
          refine ⟨h1, ?_, ?_⟩
          · intro j hj hju hjo hjg
            rcases List.mem_cons.1 hj with rfl | hjt
            · exact absurd hg hjg
            · exact h2 j hjt hju hjo hjg
          · rcases h3 with h3 | ⟨j, hj, rest⟩
            · exact Or.inl h3
            · exact Or.inr ⟨j, List.mem_cons_of_mem _ hj, rest⟩
        · by_cases hlt : (getVoice s i).generation < m
          · have hstep : stealScanStep s (b, m) i = (some i, (getVoice s i).generation) := by
              unfold stealScanStep
              rw [if_neg (by simp [hu]), if_neg ho, if_neg hg, if_pos hlt]
            rw [hstep]
            obtain ⟨h1, h2, h3⟩ := ih (some i) ((getVoice s i).generation)
            refine ⟨le_trans h1 (le_of_lt hlt), ?_, ?_⟩
            · intro j hj hju hjo hjg
              rcases List.mem_cons.1 hj with rfl | hjt
              · exact h1
              · exact h2 j hjt hju hjo hjg
            · rcases h3 with h3 | ⟨j, hj, hrest1, hrest2, hrest3, hrest4⟩
              · exact Or.inr ⟨i, by simp, hu, ho, hg, h3⟩
              · exact Or.inr ⟨j, List.mem_cons_of_mem _ hj, hrest1, hrest2, hrest3, hrest4⟩
          · have hstep : stealScanStep s (b, m) i = (b, m) := by
              unfold stealScanStep
              rw [if_neg (by simp [hu]), if_neg ho, if_neg hg, if_neg hlt]
            rw [hstep]
            obtain ⟨h1, h2, h3⟩ := ih b m
            refine ⟨h1, ?_, ?_⟩
            · intro j hj hju hjo hjg
              rcases List.mem_cons.1 hj with rfl | hjt
              · exact le_trans h1 (le_of_not_lt hlt)
              · exact h2 j hjt hju hjo hjg
            · rcases h3 with h3 | ⟨j, hj, rest⟩
              · exact Or.inl h3
              · exact Or.inr ⟨j, List.mem_cons_of_mem _ hj, rest⟩
    · have hstep : stealScanStep s (b, m) i = (b, m) := by
        unfold stealScanStep
        rw [if_pos (by simpa using hu)]
      rw [hstep]
      obtain ⟨h1, h2, h3⟩ := ih b m
      refine ⟨h1, ?_, ?_⟩
      · intro j hj hju hjo hjg
        rcases List.mem_cons.1 hj with rfl | hjt
        · exact absurd hju hu
        · exact h2 j hjt hju hjo hjg
      · rcases h3 with h3 | ⟨j, hj, rest⟩
        · exact Or.inl h3
        · exact Or.inr ⟨j, List.mem_cons_of_mem _ hj, rest⟩

/-- `stealOldestSynthVoice` succeeds and returns an in-use voice of
minimal generation, provided every in-use voice has a live owner and a
nonzero generation below the `uint32` maximum (generation-counter
wraparound is out of scope), and some voice is in use. -/
theorem stealOldestSynthVoice_spec (s : CtrlState)
    (hq : ∀ i, i < POLYPHONY_LIMIT → (getVoice s i).inUse = true →
      (getVoice s i).owner ≠ NO_SYNTH_OWNER ∧ (getVoice s i).generation ≠ 0 ∧
      (getVoice s i).generation < U32 - 1)
    (hex : ∃ i, i < POLYPHONY_LIMIT ∧ (getVoice s i).inUse = true) :
    ∃ j, j < POLYPHONY_LIMIT ∧ (getVoice s j).inUse = true ∧
      stealOldestSynthVoice s = some (j + 1, (getVoice s j).owner) ∧
      ∀ i, i < POLYPHONY_LIMIT → (getVoice s i).inUse = true →
        (getVoice s j).generation ≤ (getVoice s i).generation := by
  obtain ⟨i0, hi0, hu0⟩ := hex
  obtain ⟨ho0, hg0, hlt0⟩ := hq i0 hi0 hu0
  obtain ⟨h1, h2, h3⟩ := stealScan_spec s (List.range POLYPHONY_LIMIT) none (U32 - 1)
  have hbound : ((List.range POLYPHONY_LIMIT).foldl (stealScanStep s) (none, U32 - 1)).2 ≤
      (getVoice s i0).generation :=
    h2 i0 (List.mem_range.2 hi0) hu0 ho0 hg0
  rcases h3 with h3 | ⟨j, hj, hju, hjo, hjg, heq⟩
  · exfalso
    rw [h3] at hbound
    omega
  · refine ⟨j, List.mem_range.1 hj, hju, ?_, ?_⟩
    · unfold stealOldestSynthVoice
      rw [heq]
    · intro i hi hiu
      obtain ⟨hio, hig, _⟩ := hq i hi hiu
      have := h2 i (List.mem_range.2 hi) hiu hio hig
      rw [heq] at this
      exact this

/-- What `assignSynthChannel` does to the state, for a valid channel
(`ch = i + 1` with voice `i` in range and key `x` in range): key `x`
points at the channel, voice `i` is owned by `x`, stamped with the old
generation counter, commanded to `StartAttack`, and the counter is
bumped modulo 2^32; the queues are untouched. -/
theorem assignSynthChannel_spec (incOf : Nat → Nat) (s : CtrlState) (x ch : Nat)
    (hch : ch ≠ 0) (hv : ch - 1 < s.voices.length) (hk : x < s.keys.length) :
    (getVoice (assignSynthChannel incOf s x ch) (ch - 1)).owner = (x : Int) ∧
    (getVoice (assignSynthChannel incOf s x ch) (ch - 1)).generation = s.nextVoiceGeneration ∧
    (getVoice (assignSynthChannel incOf s x ch) (ch - 1)).cmd = .StartAttack ∧
    (getVoice (assignSynthChannel incOf s x ch) (ch - 1)).inUse = true ∧
    (getVoice (assignSynthChannel incOf s x ch) (ch - 1)).needsFree = false ∧
    (assignSynthChannel incOf s x ch).nextVoiceGeneration = (s.nextVoiceGeneration + 1) % U32 ∧
    (getKey (assignSynthChannel incOf s x ch) x).synthCh = ch ∧
    (assignSynthChannel incOf s x ch).synthQueue = s.synthQueue ∧
    (assignSynthChannel incOf s x ch).mpeAvailableChannels = s.mpeAvailableChannels := by
  unfold assignSynthChannel beginEnvelopeAttack setSynthFreq
  rw [if_neg hch]
  have hk2 : x < (setKey s x { getKey s x with synthCh := ch }).keys.length := by
    simpa [setKey] using hk
  refine ⟨?_, ?_, ?_, ?_, ?_, rfl, ?_, rfl, rfl⟩ <;>
    simp [getVoice_setVoice_self, getKey_setKey_self, getVoice_setKey, getKey_setVoice,
      setVoice, setKey, getVoice, getKey, List.getD_eq_getElem?_getD, List.getElem?_set_self',
      List.getElem?_eq_getElem, hv, hk, List.length_set]

/-- Claim C1: in poly mode, when a note-on finds the free-list
`synthChQueue` empty (after draining, with no frees pending) and at
least one voice is in use — every in-use voice having a live owner and a
nonzero generation below the `uint32` maximum — `trySynthNoteOn` steals
a voice whose generation, before reassignment, is minimal among all
in-use voices; the stolen voice's owner becomes the new key, the global
generation counter is stamped on it and bumped, and a `StartAttack`
command is issued to it. -/
theorem steal_picks_oldest_generation (cfg : Config) (incOf : Nat → Nat) (s : CtrlState)
    (x : Nat)
    (hmode : cfg.playbackMode = SYNTH_POLY)
    (hlen : s.voices.length = POLYPHONY_LIMIT)
    (hklen : x < s.keys.length)
    (hnf : ∀ i, i < POLYPHONY_LIMIT → (getVoice s i).needsFree = false)
    (hq : ∀ i, i < POLYPHONY_LIMIT → (getVoice s i).inUse = true →
      (getVoice s i).owner ≠ NO_SYNTH_OWNER ∧ (getVoice s i).generation ≠ 0 ∧
      (getVoice s i).generation < U32 - 1)
    (hempty : s.synthQueue = [])
    (hex : ∃ i, i < POLYPHONY_LIMIT ∧ (getVoice s i).inUse = true) :
    ∃ j, j < POLYPHONY_LIMIT ∧
      (∀ i, i < POLYPHONY_LIMIT → (getVoice s i).inUse = true →
        (getVoice s j).generation ≤ (getVoice s i).generation) ∧
      (getVoice (trySynthNoteOn cfg incOf s x) j).owner = (x : Int) ∧
      (getVoice (trySynthNoteOn cfg incOf s x) j).generation = s.nextVoiceGeneration ∧
      (trySynthNoteOn cfg incOf s x).nextVoiceGeneration = (s.nextVoiceGeneration + 1) % U32 ∧
      (getVoice (trySynthNoteOn cfg incOf s x) j).cmd = .StartAttack ∧
      (getKey (trySynthNoteOn cfg incOf s x) x).synthCh = j + 1 := by
  obtain ⟨j, hj, hju, hsteal, hmin⟩ := stealOldestSynthVoice_spec s hq hex
  have hdrain : processEnvelopeReleases cfg s = s := processEnvelopeReleases_id cfg s hnf
  -- the state s1 after the previous owner's key is detached
  set prevOwner : Int := (getVoice s j).owner with hprev
  set s1 : CtrlState :=
    (if 0 ≤ prevOwner ∧ prevOwner < (cfg.btnCount : Int) then
      (if (getKey s prevOwner.toNat).synthCh = j + 1 then
        setKey s prevOwner.toNat { getKey s prevOwner.toNat with synthCh := 0 } else s)
     else s) with hs1
  have hres : trySynthNoteOn cfg incOf s x =
      { assignSynthChannel incOf s1 x (j + 1) with
          log := (assignSynthChannel incOf s1 x (j + 1)).log ++ [.stoleSynthChannel (j + 1)] } := by
    unfold trySynthNoteOn
    rw [if_neg (by rw [hmode]; decide), if_pos hmode, hdrain]
    dsimp only
    rw [hempty]
    dsimp only
    rw [hsteal]
  have hs1keys : s1.keys.length = s.keys.length := by
    rw [hs1]
    split
    · split <;> simp [setKey]
    · rfl
  have hs1voices : s1.voices = s.voices := by
    rw [hs1]
    split
    · split <;> rfl
    · rfl
  have hs1gen : s1.nextVoiceGeneration = s.nextVoiceGeneration := by
    rw [hs1]
    split
    · split <;> rfl
    · rfl
  have hspec := assignSynthChannel_spec incOf s1 x (j + 1) (by omega)
    (by simpa [hs1voices, hlen] using hj) (by omega)
  refine ⟨j, hj, hmin, ?_, ?_, ?_, ?_, ?_⟩
  · rw [hres]
    simpa [getVoice] using hspec.1
  · rw [hres]
    have := hspec.2.1
    simpa [getVoice, hs1gen] using this
  · rw [hres]
    have := hspec.2.2.2.2.2.1
    simpa [hs1gen] using this
  · rw [hres]
    simpa [getVoice] using hspec.2.2.1
  · rw [hres]
    simpa [getKey] using hspec.2.2.2.2.2.2.1

/-- Witness for C1: all eight voices busy (generations 10..17, owners
0..7), key 9 pressed; the theorem applies and the stolen slot is the
minimal-generation one. -/
theorem steal_picks_oldest_generation_witness :
    (({} : Config).playbackMode = SYNTH_POLY ∧
     c1state.voices.length = POLYPHONY_LIMIT ∧
     9 < c1state.keys.length ∧
     c1state.synthQueue = [] ∧
     (∀ i, i < POLYPHONY_LIMIT → (getVoice c1state i).needsFree = false) ∧
     (∃ i, i < POLYPHONY_LIMIT ∧ (getVoice c1state i).inUse = true)) ∧
    (∃ j, j < POLYPHONY_LIMIT ∧
      (∀ i, i < POLYPHONY_LIMIT → (getVoice c1state i).inUse = true →
        (getVoice c1state j).generation ≤ (getVoice c1state i).generation) ∧
      (getVoice (trySynthNoteOn {} (fun _ => 7) c1state 9) j).owner = (9 : Int) ∧
      (getVoice (trySynthNoteOn {} (fun _ => 7) c1state 9) j).generation =
        c1state.nextVoiceGeneration ∧
      (trySynthNoteOn {} (fun _ => 7) c1state 9).nextVoiceGeneration =
        (c1state.nextVoiceGeneration + 1) % U32 ∧
      (getVoice (trySynthNoteOn {} (fun _ => 7) c1state 9) j).cmd = .StartAttack ∧
      (getKey (trySynthNoteOn {} (fun _ => 7) c1state 9) 9).synthCh = j + 1) :=
  ⟨⟨rfl, by decide, by decide, rfl, by decide, by decide⟩,
   steal_picks_oldest_generation {} (fun _ => 7) c1state 9 rfl (by decide) (by decide)
     (by decide) (by decide) rfl (by decide)⟩

/-! ## C3: channel exclusivity -/

theorem releaseMPEChannel_perm (cfg : Config) (ch : Nat) (pool : List Nat)
    (h1 : cfg.mpeLowestChannel ≤ ch) (h2 : ch ≤ cfg.mpeHighestChannel) :
    (releaseMPEChannel cfg ch pool).Perm (ch :: pool) := by
  unfold releaseMPEChannel
  rw [if_neg (by omega)]
  split
  · exact List.perm_orderedInsert _ _ _
  · exact List.perm_append_singleton _ _

/-- Shape of a successful pool-discipline note-on: the pool loses its
front channel `c` and key `x` records `MIDIch = c` (and some retune
value). -/
theorem tryMIDInoteOn_mpe_shape (cfg : Config) (ji : CtrlState → Nat → Int)
    (s : CtrlState) (x c : Nat) (rest : List Nat)
    (hactive : cfg.mpeChannelQueueActive = true)
    (hneeded : cfg.pitchBendsNeeded ≠ 1)
    (hx : x < s.keys.length)
    (hnote : (getKey s x).note < 128)
    (hch0 : (getKey s x).MIDIch = 0)
    (havail : mpePlayableChannelCount cfg ≠ 0)
    (hpool : s.mpeAvailableChannels = c :: rest)
    (hc0 : c ≠ 0) :
    ∃ jiv : Int,
      (tryMIDInoteOn cfg ji s x).mpeAvailableChannels = rest ∧
      (tryMIDInoteOn cfg ji s x).keys =
        s.keys.set x { getKey s x with MIDIch := c, jiRetune := jiv } := by
  have hassign : assignMIDIChannelOnPress cfg s x (getKey s x) =
      setKey { s with mpeAvailableChannels := rest, log := s.log ++ [.assignedMPE c] } x
        { getKey s x with MIDIch := c } := by
    unfold assignMIDIChannelOnPress
    dsimp only
    rw [if_neg hneeded, if_neg havail, if_pos hactive, hpool]
    dsimp only [takeMPEChannel]
    rw [if_neg hc0]
  have hres : tryMIDInoteOn cfg ji s x =
      sendNoteOnMessages cfg ji
        (setKey { s with mpeAvailableChannels := rest, log := s.log ++ [.assignedMPE c] } x
          { getKey s x with MIDIch := c }) x := by
    unfold tryMIDInoteOn
    dsimp only
    rw [if_neg (by omega), if_neg (not_ne_iff.mpr hch0), hassign]
  set s1 : CtrlState :=
    setKey { s with mpeAvailableChannels := rest, log := s.log ++ [.assignedMPE c] } x
      { getKey s x with MIDIch := c } with hs1
  have hx1 : x < s1.keys.length := by simpa [hs1, setKey] using hx
  have hk1 : getKey s1 x = { getKey s x with MIDIch := c } := by
    rw [hs1]
    exact getKey_setKey_self _ _ _ (by simpa using hx)
  have hkch : (getKey s1 x).MIDIch = c := by rw [hk1]
  rw [hres]
  unfold sendNoteOnMessages
  dsimp only
  rw [if_pos (by rw [hkch]; exact hc0)]
  refine ⟨if cfg.jiEnabled then
    ji { s1 with pressedKeyIDs := s1.pressedKeyIDs ++ [x] } x else 0, rfl, ?_⟩
  dsimp only [setKey]
  rw [hk1]
  show (s1.keys.set x _) = _
  rw [hs1]
  dsimp only [setKey]
  rw [List.set_set]

/-- Shape of a note-off for a key holding a channel: the key record is
cleared and, when the pool discipline is active and the channel in
range, the channel is returned to the pool. -/
theorem tryMIDInoteOff_shape (cfg : Config) (s : CtrlState) (x : Nat)
    (hx : x < s.keys.length)
    (hchn : (getKey s x).MIDIch ≠ 0) :
    (tryMIDInoteOff cfg s x).mpeAvailableChannels =
      (if cfg.mpeChannelQueueActive ∧ cfg.mpeLowestChannel ≤ (getKey s x).MIDIch ∧
          (getKey s x).MIDIch ≤ cfg.mpeHighestChannel
       then releaseMPEChannel cfg (getKey s x).MIDIch s.mpeAvailableChannels
       else s.mpeAvailableChannels) ∧
    (tryMIDInoteOff cfg s x).keys =
      s.keys.set x { getKey s x with jiRetune := 0, MIDIch := 0 } := by
  have hgd : (s.keys.set x { getKey s x with jiRetune := 0 }).getD x {} =
      { getKey s x with jiRetune := 0 } :=
    getD_set_self _ _ _ _ (by simpa using hx)
  dsimp only [getKey] at hgd
  unfold tryMIDInoteOff
  dsimp only
  rw [if_neg hchn]
  constructor
  · dsimp only [setKey]
    split <;> rfl
  · dsimp only [setKey, getKey]
    split
    · dsimp only
      rw [List.set_set, hgd]
    · dsimp only
      rw [List.set_set, hgd]

theorem tryMIDInoteOn_note_oob (cfg : Config) (ji : CtrlState → Nat → Int)
    (s : CtrlState) (x : Nat) (h : 128 ≤ (getKey s x).note) :
    tryMIDInoteOn cfg ji s x = s := by
  unfold tryMIDInoteOn
  dsimp only
  rw [if_pos h]

theorem tryMIDInoteOn_already_assigned (cfg : Config) (ji : CtrlState → Nat → Int)
    (s : CtrlState) (x : Nat) (hn : ¬ 128 ≤ (getKey s x).note)
    (h : (getKey s x).MIDIch ≠ 0) :
    tryMIDInoteOn cfg ji s x = s := by
  unfold tryMIDInoteOn
  dsimp only
  rw [if_neg hn, if_pos h]

theorem tryMIDInoteOff_not_held (cfg : Config) (s : CtrlState) (x : Nat)
    (h : (getKey s x).MIDIch = 0) :
    tryMIDInoteOff cfg s x = s := by
  unfold tryMIDInoteOff
  dsimp only
  rw [if_pos h]

/-- Claim C3: while the MPE pool discipline is active, the
channel-exclusivity invariant — every channel of the configured range is
exactly once either in `mpeAvailableChannels` or the `MIDIch` of a held
key — is preserved by `tryMIDInoteOn` (which pops the assigned channel
from the pool) and by `tryMIDInoteOff` (which returns it exactly
once). -/
theorem channel_exclusivity_invariant (cfg : Config) (ji : CtrlState → Nat → Int)
    (s : CtrlState) (x : Nat)
    (hactive : cfg.mpeChannelQueueActive = true)
    (hneeded : cfg.pitchBendsNeeded ≠ 1)
    (hlow : 1 ≤ cfg.mpeLowestChannel)
    (hx : x < s.keys.length)
    (hinv : ChannelInv cfg s) :
    ChannelInv cfg (tryMIDInoteOn cfg ji s x) ∧ ChannelInv cfg (tryMIDInoteOff cfg s x) := by
  constructor
  · -- note-on
    by_cases hnote : 128 ≤ (getKey s x).note
    · rw [tryMIDInoteOn_note_oob cfg ji s x hnote]
      exact hinv
    · by_cases hch : (getKey s x).MIDIch = 0
      · by_cases havail : mpePlayableChannelCount cfg = 0
        · rw [tryMIDInoteOn_no_channels_eq cfg ji s x (by omega) hch hneeded havail]
          exact hinv
        · cases hpool : s.mpeAvailableChannels with
          | nil =>
            rw [tryMIDInoteOn_pool_empty_eq cfg ji s x (by omega) hch hneeded havail hactive hpool]
            exact hinv
          | cons cfront rest =>
            have hcr : cfg.mpeLowestChannel ≤ cfront ∧ cfront ≤ cfg.mpeHighestChannel :=
              hinv.1 cfront (by rw [hpool]; exact List.mem_cons_self _ _)
            obtain ⟨jiv, hpool', hkeys'⟩ :=
              tryMIDInoteOn_mpe_shape cfg ji s x cfront rest hactive hneeded hx (by omega) hch
                havail hpool (by omega)
            constructor
            · intro ch hmem
              rw [hpool'] at hmem
              exact hinv.1 ch (by rw [hpool]; exact List.mem_cons_of_mem _ hmem)
            · intro ch h1 h2
              have horig := hinv.2 ch h1 h2
              rw [hpool] at horig
              have hch' : (s.keys.getD x ({} : Key)).MIDIch = 0 := hch
              have hcnt := countKeys_set s.keys x
                { getKey s x with MIDIch := cfront, jiRetune := jiv } ch hx
              rw [hch', if_neg (by omega : ¬ (0 : Nat) = ch)] at hcnt
              unfold keysAssignedCount at horig ⊢
              rw [hpool', hkeys']
              rw [List.count_cons] at horig
              by_cases hce : cfront = ch
              · subst hce
                rw [if_pos rfl] at hcnt
                rw [beq_self_eq_true, if_pos rfl] at horig
                omega
              · rw [if_neg (by simpa using hce)] at hcnt
                have hbeq2 : (cfront == ch) = false := by
                  simp [hce]
                rw [hbeq2, if_neg (by simp : ¬ (false = true)), Nat.add_zero] at horig
                omega
      · rw [tryMIDInoteOn_already_assigned cfg ji s x hnote hch]
        exact hinv
  · -- note-off
    by_cases hchn : (getKey s x).MIDIch = 0
    · rw [tryMIDInoteOff_not_held cfg s x hchn]
      exact hinv
    · obtain ⟨hpool', hkeys'⟩ := tryMIDInoteOff_shape cfg s x hx hchn
      constructor
      · intro ch hmem
        rw [hpool'] at hmem
        split at hmem
        · next hcond =>
          have hperm := releaseMPEChannel_perm cfg (getKey s x).MIDIch s.mpeAvailableChannels
            hcond.2.1 hcond.2.2
          rcases List.mem_cons.1 ((hperm.mem_iff).1 hmem) with hc1 | hc2
          · exact hc1 ▸ ⟨hcond.2.1, hcond.2.2⟩
          · exact hinv.1 ch hc2
        · exact hinv.1 ch hmem
      · intro ch h1 h2
        have horig := hinv.2 ch h1 h2
        have hcnt := countKeys_set s.keys x { getKey s x with jiRetune := 0, MIDIch := 0 } ch hx
        have hv : ({ getKey s x with jiRetune := 0, MIDIch := 0 } : Key).MIDIch = 0 := rfl
        rw [hv, if_neg (by omega : ¬ (0 : Nat) = ch), Nat.add_zero] at hcnt
        unfold keysAssignedCount at horig ⊢
        rw [hpool', hkeys']
        split
        · next hcond =>
          have hperm := releaseMPEChannel_perm cfg (getKey s x).MIDIch s.mpeAvailableChannels
            hcond.2.1 hcond.2.2
          rw [hperm.count_eq, List.count_cons]
          by_cases hce : (getKey s x).MIDIch = ch
          · rw [if_pos (show (s.keys.getD x ({} : Key)).MIDIch = ch from hce)] at hcnt
            have hb : ((getKey s x).MIDIch == ch) = true := by simpa using hce
            rw [hb, if_pos rfl]
            omega
          · rw [if_neg (show ¬ (s.keys.getD x ({} : Key)).MIDIch = ch from hce),
              Nat.add_zero] at hcnt
            have hb : ((getKey s x).MIDIch == ch) = false := by simpa using hce
            rw [hb, if_neg (by simp : ¬ (false = true)), Nat.add_zero]
            omega
        · next hcond =>
          -- the released channel is outside the range (or the pool inactive):
          -- it cannot be ch, so the assigned count at ch is unchanged
          have hne : (getKey s x).MIDIch ≠ ch := fun he => hcond ⟨hactive, he ▸ h1, he ▸ h2⟩
          rw [if_neg (show ¬ (s.keys.getD x ({} : Key)).MIDIch = ch from hne),
            Nat.add_zero] at hcnt
          omega

/-- Witness for C3 at the concrete two-key state with pool [2, 3]. -/
theorem channel_exclusivity_invariant_witness :
    (c3cfg.mpeChannelQueueActive = true ∧ c3cfg.pitchBendsNeeded ≠ 1 ∧
     1 ≤ c3cfg.mpeLowestChannel ∧ 0 < c3state.keys.length ∧ ChannelInv c3cfg c3state) ∧
    (ChannelInv c3cfg (tryMIDInoteOn c3cfg (fun _ _ => 0) c3state 0) ∧
     ChannelInv c3cfg (tryMIDInoteOff c3cfg c3state 0)) := by
  have hinv : ChannelInv c3cfg c3state := by
    constructor
    · intro ch hmem
      fin_cases hmem <;> decide
    · intro ch h1 h2
      have h1b : 2 ≤ ch := h1
      have h2b : ch ≤ 3 := h2
      interval_cases ch <;> decide
  exact ⟨⟨rfl, by decide, by decide, by decide, hinv⟩,
    channel_exclusivity_invariant c3cfg (fun _ _ => 0) c3state 0 rfl (by decide) (by decide)
      (by decide) hinv⟩

/-! ## C7: the just-intonation ratio scan on a pure 3:2 interval -/

theorem jiStep_none {a : Type} [LinearOrderedField a] (cents : Nat × Nat → a) (thr e : a)
    (r : Nat × Nat) (rest : List (Nat × Nat)) (hbig : ¬ |e - cents r| < thr) :
    jiRatioScanAux cents thr e (r :: rest) none =
      jiRatioScanAux cents thr e rest (some (r, e - cents r)) := by
  rw [jiRatioScanAux]
  dsimp only
  rw [if_pos rfl, if_neg hbig]

theorem jiStep_none_break {a : Type} [LinearOrderedField a] (cents : Nat × Nat → a) (thr e : a)
    (r : Nat × Nat) (rest : List (Nat × Nat)) (hsmall : |e - cents r| < thr) :
    jiRatioScanAux cents thr e (r :: rest) none = some (r, e - cents r) := by
  rw [jiRatioScanAux]
  dsimp only
  rw [if_pos rfl, if_pos hsmall]

theorem jiStep_skip {a : Type} [LinearOrderedField a] (cents : Nat × Nat → a) (thr e : a)
    (r : Nat × Nat) (rest : List (Nat × Nat)) (b : (Nat × Nat) × a)
    (h : ¬ |cents r - e| < |b.2|) :
    jiRatioScanAux cents thr e (r :: rest) (some b) =
      jiRatioScanAux cents thr e rest (some b) := by
  rw [jiRatioScanAux]
  dsimp only
  rw [decide_eq_false h, if_neg (by simp)]

theorem jiStep_keep_go {a : Type} [LinearOrderedField a] (cents : Nat × Nat → a) (thr e : a)
    (r : Nat × Nat) (rest : List (Nat × Nat)) (b : (Nat × Nat) × a)
    (h : |cents r - e| < |b.2|) (hbig : ¬ |e - cents r| < thr) :
    jiRatioScanAux cents thr e (r :: rest) (some b) =
      jiRatioScanAux cents thr e rest (some (r, e - cents r)) := by
  rw [jiRatioScanAux]
  dsimp only
  rw [decide_eq_true h, if_pos rfl, if_neg hbig]

theorem jiStep_keep_break {a : Type} [LinearOrderedField a] (cents : Nat × Nat → a) (thr e : a)
    (r : Nat × Nat) (rest : List (Nat × Nat)) (b : (Nat × Nat) × a)
    (h : |cents r - e| < |b.2|) (hsmall : |e - cents r| < thr) :
    jiRatioScanAux cents thr e (r :: rest) (some b) = some (r, e - cents r) := by
  rw [jiRatioScanAux]
  dsimp only
  rw [decide_eq_true h, if_pos rfl, if_pos hsmall]

theorem ratioToCents_sub (p q : Real) (hp : 0 < p) (hq : 0 < q) :
    ratioToCents p - ratioToCents q = 1200 * (Real.log (p / q) / Real.log 2) := by
  unfold ratioToCents
  rw [Real.log_div (ne_of_gt hp) (ne_of_gt hq)]
  ring

theorem ratioToCents_sub_abs (p q : Real) (hp : 0 < p) (hq : 0 < q) :
    |ratioToCents p - ratioToCents q| = 1200 * |Real.log (p / q)| / Real.log 2 := by
  rw [ratioToCents_sub p q hp hq]
  have hL2 : (0:Real) < Real.log 2 := Real.log_pos (by norm_num)
  rw [abs_mul, abs_div, abs_of_pos hL2]
  norm_num
  ring

/-- The common positive scale `1200 / log 2` preserves strict
comparison of the log magnitudes. -/
theorem centsScale_lt {u v : Real} (h : u < v) :
    1200 * u / Real.log 2 < 1200 * v / Real.log 2 := by
  have hL2 : (0:Real) < Real.log 2 := Real.log_pos (by norm_num)
  rw [div_lt_div_iff_of_pos_right hL2]
  linarith

theorem centsScale_le {u v : Real} (h : u ≤ v) :
    1200 * u / Real.log 2 ≤ 1200 * v / Real.log 2 := by
  have hL2 : (0:Real) < Real.log 2 := Real.log_pos (by norm_num)
  rw [div_le_div_iff_of_pos_right hL2]
  linarith

/-- `25 ≤ 1200 * log q / log 2` whenever `2 ≤ q ^ 48` — the quarter-step
threshold at a 100-cent step never swallows these table distances. -/
theorem threshold_le_cents {q : Real} (hq : 0 < q) (h : (2:Real) ≤ q ^ 48) :
    (25:Real) ≤ 1200 * Real.log q / Real.log 2 := by
  have hL2 : (0:Real) < Real.log 2 := Real.log_pos (by norm_num)
  have h2 := Real.log_le_log (by norm_num) h
  rw [Real.log_pow] at h2
  rw [le_div_iff hL2]
  push_cast at h2
  nlinarith [h2]

/-- The ratio scan on an exact upward 3:2 interval (new key a just fifth
above the reference) selects the `(2, 3)` table entry with deviation
exactly 0: the code measures the interval as reference frequency over
new frequency, so the match is `2/3`, found at table index 6. -/
theorem jiScan_three_two (f : Real) (hf : 0 < f) :
    justIntonationRatioScan 100 f (3/2 * f) = some ((2, 3), 0) := by
  have hf' : f ≠ 0 := ne_of_gt hf
  have hfr : f / (3/2 * f) = 2/3 := by
    field_simp
    ring
  unfold justIntonationRatioScan
  rw [hfr, show (100:Real)/4 = 25 by norm_num]
  set C : Nat × Nat → Real := fun r => ratioToCents ((r.1 : Real) / (r.2 : Real)) with hC
  set e : Real := ratioToCents (2/3) with he
  -- cents of the first seven table entries
  have hc11 : C (1,1) = ratioToCents 1 := by rw [hC]; norm_num
  have hc12 : C (1,2) = ratioToCents (1/2) := by rw [hC]; norm_num
  have hc21 : C (2,1) = ratioToCents 2 := by rw [hC]; norm_num
  have hc31 : C (3,1) = ratioToCents 3 := by rw [hC]; norm_num
  have hc13 : C (1,3) = ratioToCents (1/3) := by rw [hC]; norm_num
  have hc14 : C (1,4) = ratioToCents (1/4) := by rw [hC]; norm_num
  have hc23 : C (2,3) = ratioToCents (2/3) := by rw [hC]; norm_num
  -- log magnitudes
  have habs23 : |Real.log ((2:Real)/3)| = Real.log (3/2) := by
    rw [abs_of_neg (Real.log_neg (by norm_num) (by norm_num)), ← Real.log_inv]
    norm_num
  have habs34 : |Real.log ((3:Real)/4)| = Real.log (4/3) := by
    rw [abs_of_neg (Real.log_neg (by norm_num) (by norm_num)), ← Real.log_inv]
    norm_num
  have habs12 : |Real.log ((1:Real)/2)| = Real.log 2 := by
    rw [abs_of_neg (Real.log_neg (by norm_num) (by norm_num)), ← Real.log_inv]
    norm_num
  have habs38 : |Real.log ((3:Real)/8)| = Real.log (8/3) := by
    rw [abs_of_neg (Real.log_neg (by norm_num) (by norm_num)), ← Real.log_inv]
    norm_num
  -- cents distances of the entries from e
  have d1 : |ratioToCents (2/3) - ratioToCents 1| = 1200 * Real.log (3/2) / Real.log 2 := by
    rw [ratioToCents_sub_abs _ _ (by norm_num) (by norm_num)]
    norm_num [habs23]
  have d2 : |ratioToCents (1/2) - ratioToCents (2/3)| = 1200 * Real.log (4/3) / Real.log 2 := by
    rw [ratioToCents_sub_abs _ _ (by norm_num) (by norm_num)]
    rw [show (1:Real)/2 / (2/3) = 3/4 by norm_num, habs34]
  have d3 : |ratioToCents 2 - ratioToCents (2/3)| = 1200 * Real.log 3 / Real.log 2 := by
    rw [ratioToCents_sub_abs _ _ (by norm_num) (by norm_num)]
    rw [show (2:Real) / (2/3) = 3 by norm_num,
      abs_of_nonneg (Real.log_nonneg (by norm_num))]
  have d4 : |ratioToCents 3 - ratioToCents (2/3)| = 1200 * Real.log (9/2) / Real.log 2 := by
    rw [ratioToCents_sub_abs _ _ (by norm_num) (by norm_num)]
    rw [show (3:Real) / (2/3) = 9/2 by norm_num,
      abs_of_nonneg (Real.log_nonneg (by norm_num))]
  have d5 : |ratioToCents (1/3) - ratioToCents (2/3)| = 1200 * Real.log 2 / Real.log 2 := by
    rw [ratioToCents_sub_abs _ _ (by norm_num) (by norm_num)]
    rw [show (1:Real)/3 / (2/3) = 1/2 by norm_num, habs12]
  have d6 : |ratioToCents (1/4) - ratioToCents (2/3)| = 1200 * Real.log (8/3) / Real.log 2 := by
    rw [ratioToCents_sub_abs _ _ (by norm_num) (by norm_num)]
    rw [show (1:Real)/4 / (2/3) = 3/8 by norm_num, habs38]
  -- step conditions
  have S1 : ¬ |e - C (1,1)| < 25 := by
    rw [hc11, he, d1]
    have := threshold_le_cents (q := 3/2) (by norm_num) (by norm_num)
    linarith
  have S2keep : |C (1,2) - e| < |e - C (1,1)| := by
    rw [hc11, hc12, he, d2, d1]
    exact centsScale_lt (Real.log_lt_log (by norm_num) (by norm_num))
  have S2big : ¬ |e - C (1,2)| < 25 := by
    rw [hc12, he, abs_sub_comm, d2]
    have := threshold_le_cents (q := 4/3) (by norm_num) (by norm_num)
    linarith
  have S3 : ¬ |C (2,1) - e| < |e - C (1,2)| := by
    rw [hc21, hc12, he, abs_sub_comm (ratioToCents (2/3)) (ratioToCents (1/2)), d2, d3]
    exact not_lt.mpr (centsScale_le (Real.log_le_log (by norm_num) (by norm_num)))
  have S4 : ¬ |C (3,1) - e| < |e - C (1,2)| := by
    rw [hc31, hc12, he, abs_sub_comm (ratioToCents (2/3)) (ratioToCents (1/2)), d2, d4]
    exact not_lt.mpr (centsScale_le (Real.log_le_log (by norm_num) (by norm_num)))
  have S5 : ¬ |C (1,3) - e| < |e - C (1,2)| := by
    rw [hc13, hc12, he, abs_sub_comm (ratioToCents (2/3)) (ratioToCents (1/2)), d2, d5]
    exact not_lt.mpr (centsScale_le (Real.log_le_log (by norm_num) (by norm_num)))
  have S6 : ¬ |C (1,4) - e| < |e - C (1,2)| := by
    rw [hc14, hc12, he, abs_sub_comm (ratioToCents (2/3)) (ratioToCents (1/2)), d2, d6]
    exact not_lt.mpr (centsScale_le (Real.log_le_log (by norm_num) (by norm_num)))
  have hzero : C (2,3) - e = 0 := by
    rw [hc23, he, sub_self]
  have S7keep : |C (2,3) - e| < |e - C (1,2)| := by
    rw [hzero, hc12, he, abs_sub_comm (ratioToCents (2/3)) (ratioToCents (1/2)), d2, abs_zero]
    have hL2 : (0:Real) < Real.log 2 := Real.log_pos (by norm_num)
    have hL43 : (0:Real) < Real.log (4/3) := Real.log_pos (by norm_num)
    positivity
  have S7small : |e - C (2,3)| < 25 := by
    rw [abs_sub_comm, hzero, abs_zero]
    norm_num
  -- the first seven entries of the table
  have hsplit : ratios = (1,1) :: (1,2) :: (2,1) :: (3,1) :: (1,3) :: (1,4) :: (2,3) ::
      List.drop 7 ratios := rfl
  rw [hsplit]
  rw [jiStep_none C 25 e (1,1) _ S1]
  rw [jiStep_keep_go C 25 e (1,2) _ _ S2keep S2big]
  rw [jiStep_skip C 25 e (2,1) _ _ S3]
  rw [jiStep_skip C 25 e (3,1) _ _ S4]
  rw [jiStep_skip C 25 e (1,3) _ _ S5]
  rw [jiStep_skip C 25 e (1,4) _ _ S6]
  rw [jiStep_keep_break C 25 e (2,3) _ _ S7keep S7small]
  have : e - C (2,3) = 0 := by
    rw [hc23, he, sub_self]
  rw [this]

/-- Counterexample to claim C7: with the second key an exact 3:2 above
the first (frequencies 440 and 660), the linear scan of the ratio table
resolves to the `(2, 3)` entry, which is not the `{3, 2}` entry the
claim names. -/
theorem ji_scan_counterexample :
    justIntonationRatioScan 100 440 660 = some ((2, 3), 0) ∧
    ((2, 3) : Nat × Nat) ≠ (3, 2) := by
  have h := jiScan_three_two 440 (by norm_num)
  rw [show (3:Real)/2 * 440 = 660 by norm_num] at h
  exact ⟨h, by decide⟩

/-- Claim C7 as amended: with just intonation enabled and the second
key's frequency ratio to the first exactly 3:2, the linear scan
(simplest-first, quarter-step acceptance) resolves the bend correction
to the `(2, 3)` ratio-table entry with deviation exactly 0 — the code
compares `EDOCents = ratioToCents (reference frequency / new frequency)`,
so the upward fifth matches the `2/3` entry (table index 6, ahead of the
`(3, 2)` entry at index 9), still the simplest exact match rather than a
more complex nearby ratio. -/
theorem ji_scan_resolves_two_three (f : Real) (hf : 0 < f) :
    justIntonationRatioScan 100 f (3/2 * f) = some ((2, 3), 0) ∧
    ratios.getD 6 (0, 0) = (2, 3) ∧ ratios.getD 9 (0, 0) = (3, 2) :=
  ⟨jiScan_three_two f hf, rfl, rfl⟩

/-- Witness for the amended C7 at reference frequency 440 Hz. -/
theorem ji_scan_resolves_two_three_witness :
    (0:Real) < 440 ∧
    (justIntonationRatioScan 100 440 (3/2 * 440) = some ((2, 3), 0) ∧
     ratios.getD 6 (0, 0) = (2, 3) ∧ ratios.getD 9 (0, 0) = (3, 2)) :=
  ⟨by norm_num, ji_scan_resolves_two_three 440 (by norm_num)⟩

/-! ## C9: round trip through both allocators -/

theorem applyCommand_gen_indep (p : EnvelopeParams) (v : Voice) (g : Nat)
    (h : v.cmd ≠ .StartAttack) :
    applyCommand p (v, g) = ((applyCommand p (v, 0)).1, g) := by
  cases hc : v.cmd
  case None => simp [applyCommand, hc]
  case StartAttack => exact absurd hc h
  case StartRelease =>
    simp only [applyCommand, hc]
    split <;> rfl
  case Reset => simp [applyCommand, hc]

theorem tickVoice_gen_indep (p : EnvelopeParams) (v : Voice) (g : Nat)
    (h : v.cmd ≠ .StartAttack) :
    tickVoice p (v, g) = ((tickVoice p (v, 0)).1, g) := by
  unfold tickVoice
  rw [applyCommand_gen_indep p v g h]
  dsimp only
  split_ifs <;> rfl

theorem advanceStage_cmd (p : EnvelopeParams) (v : Voice) :
    (advanceStage p v).cmd = v.cmd := by
  cases hstage : v.env.stage <;>
    simp only [advanceStage, hstage] <;> split_ifs <;> rfl

/-- The envelope advance and the post-switch bookkeeping never write
the command cell: after a tick the pending command is whatever the
command-consumption step left. -/
theorem tickVoice_cmd_frame (p : EnvelopeParams) (v : Voice) (g : Nat) :
    (tickVoice p (v, g)).1.cmd = (applyCommand p (v, g)).1.cmd := by
  unfold tickVoice
  dsimp only
  split
  · rfl
  · split
    · split
      · exact advanceStage_cmd p _
      · exact advanceStage_cmd p _
    · split
      · exact advanceStage_cmd p _
      · exact advanceStage_cmd p _

/-- After a tick, a voice whose pending command was not `StartAttack`
has no pending command (either it had none, or it was consumed). -/
theorem tickVoice_cmd_result (p : EnvelopeParams) (v : Voice) (g : Nat)
    (h : v.cmd ≠ .StartAttack) :
    (tickVoice p (v, g)).1.cmd = .None := by
  rw [tickVoice_cmd_frame]
  cases hc : v.cmd
  case None => simp [applyCommand, hc]
  case StartAttack => exact absurd hc h
  case StartRelease =>
    simp only [applyCommand, hc]
    split <;> rfl
  case Reset => simp [applyCommand, hc]

/-- A commandless voice not in the `Release` stage never enters
`Release` in one tick and never raises `needsFree`. -/
theorem tickVoice_other (p : EnvelopeParams) (v : Voice) (g : Nat)
    (hc : v.cmd = .None) (hs : v.env.stage ≠ .Release) :
    (tickVoice p (v, g)).1.env.stage ≠ .Release ∧
    (tickVoice p (v, g)).1.needsFree = v.needsFree := by
  have happ : applyCommand p (v, g) = (v, g) := by
    simp [applyCommand, hc]
  unfold tickVoice
  rw [happ]
  dsimp only
  split
  · exact ⟨hs, rfl⟩
  · cases hstage : v.env.stage
    case Release => exact absurd hstage hs
    case Idle =>
      simp only [advanceStage, hstage]
      split_ifs <;> simp_all
    case Attack =>
      simp only [advanceStage, hstage]
      split_ifs <;> simp_all
    case Decay =>
      simp only [advanceStage, hstage]
      split_ifs <;> simp_all
    case Sustain =>
      simp only [advanceStage, hstage]
      split_ifs <;> simp_all

theorem getD_map_voice (f : Voice → Voice) (l : List Voice) (i : Nat) (h : i < l.length) :
    (l.map f).getD i {} = f (l.getD i {}) := by
  induction l generalizing i with
  | nil => simp at h
  | cons a t ih =>
    cases i with
    | zero => simp
    | succ n =>
      simp only [List.map_cons, List.getD_cons_succ]
      exact ih n (by simpa using h)

/-- The per-voice fold of `tickState` is a `map` of the single-voice
tick when no voice has a pending `StartAttack` (the only command that
reads the shared generation counter). -/
theorem voices_fold_map (p : EnvelopeParams) :
    ∀ (vs : List Voice) (acc : List Voice) (g : Nat),
    (∀ v ∈ vs, v.cmd ≠ .StartAttack) →
    vs.foldl (fun (a : List Voice × Nat) v =>
        let t := tickVoice p (v, a.2)
        (a.1 ++ [t.1], t.2)) (acc, g) =
      (acc ++ vs.map (fun v => (tickVoice p (v, 0)).1), g) := by
  intro vs
  induction vs with
  | nil => intro acc g _; simp
  | cons v t ih =>
    intro acc g h
    rw [List.foldl_cons]
    dsimp only
    rw [tickVoice_gen_indep p v g (h v (by simp))]
    rw [ih _ g (fun w hw => h w (by simp [hw]))]
    simp

/-- One `tickState` pass: the non-voice fields except the generation
counter are untouched, and each voice is ticked independently. -/
theorem tickState_voice_fields (p : EnvelopeParams) (s : CtrlState)
    (hall : ∀ v ∈ s.voices, v.cmd ≠ .StartAttack) :
    (tickState p s).keys = s.keys ∧
    (tickState p s).synthQueue = s.synthQueue ∧
    (tickState p s).mpeAvailableChannels = s.mpeAvailableChannels ∧
    (tickState p s).pressedKeyIDs = s.pressedKeyIDs ∧
    (tickState p s).voices.length = s.voices.length ∧
    ∀ i, i < s.voices.length →
      getVoice (tickState p s) i = (tickVoice p (getVoice s i, 0)).1 := by
  unfold tickState
  rw [voices_fold_map p s.voices [] s.nextVoiceGeneration hall]
  dsimp only
  refine ⟨rfl, rfl, rfl, rfl, by simp, ?_⟩
  intro i hi
  unfold getVoice
  dsimp only
  rw [List.nil_append, getD_map_voice _ _ _ hi]

theorem getVoice_eq_getElem (s : CtrlState) (i : Nat) (h : i < s.voices.length) :
    getVoice s i = s.voices[i] := by
  simp [getVoice, List.getD_eq_getElem?_getD, List.getElem?_eq_getElem h]

/-- Iterating the audio tick on a state in which only voice `w0` may
hold a pending command (a `StartRelease`): the control-side fields are
frozen, the other voices never raise `needsFree`, and voice `w0`
evolves by the single-voice tick iteration. -/
theorem tickState_iter (p : EnvelopeParams) (w0 : Nat) :
    ∀ (n : Nat) (s : CtrlState),
    w0 < s.voices.length →
    (∀ i, i < s.voices.length → i ≠ w0 →
      (getVoice s i).cmd = .None ∧ (getVoice s i).env.stage ≠ .Release ∧
      (getVoice s i).needsFree = false) →
    (getVoice s w0).cmd ≠ .StartAttack →
    ((tickState p)^[n] s).keys = s.keys ∧
    ((tickState p)^[n] s).synthQueue = s.synthQueue ∧
    ((tickState p)^[n] s).mpeAvailableChannels = s.mpeAvailableChannels ∧
    ((tickState p)^[n] s).voices.length = s.voices.length ∧
    (∀ i, i < s.voices.length → i ≠ w0 →
      (getVoice ((tickState p)^[n] s) i).needsFree = false) ∧
    getVoice ((tickState p)^[n] s) w0 = ((tickVoice p)^[n] (getVoice s w0, 0)).1 := by
  intro n
  induction n with
  | zero =>
    intro s hw hother hcmd
    simp only [Function.iterate_zero_apply]
    exact ⟨trivial, trivial, trivial, trivial, fun i hi hiw => (hother i hi hiw).2.2, trivial⟩
  | succ m ih =>
    intro s hw hother hcmd
    have hall : ∀ v ∈ s.voices, v.cmd ≠ .StartAttack := by
      intro v hv
      obtain ⟨i, hi, hvi⟩ := List.mem_iff_getElem.1 hv
      rw [← getVoice_eq_getElem s i hi] at hvi
      by_cases hiw : i = w0
      · subst hiw
        rw [← hvi]
        exact hcmd
      · rw [← hvi]
        rw [(hother i hi hiw).1]
        intro hcon
        exact EnvelopeCommand.noConfusion hcon
    obtain ⟨hk1, hq1, hp1, hpk1, hl1, hv1⟩ := tickState_voice_fields p s hall
    have hw1 : w0 < (tickState p s).voices.length := by rw [hl1]; exact hw
    have hother1 : ∀ i, i < (tickState p s).voices.length → i ≠ w0 →
        (getVoice (tickState p s) i).cmd = .None ∧
        (getVoice (tickState p s) i).env.stage ≠ .Release ∧
        (getVoice (tickState p s) i).needsFree = false := by
      intro i hi hiw
      rw [hl1] at hi
      rw [hv1 i hi]
      obtain ⟨hcN, hsN, hfN⟩ := hother i hi hiw
      refine ⟨tickVoice_cmd_result p _ 0 (by rw [hcN]; intro hcon; exact EnvelopeCommand.noConfusion hcon), ?_, ?_⟩
      · exact (tickVoice_other p _ 0 hcN hsN).1
      · rw [(tickVoice_other p _ 0 hcN hsN).2]
        exact hfN
    have hcmd1 : (getVoice (tickState p s) w0).cmd ≠ .StartAttack := by
      rw [hl1] at hw1
      rw [hv1 w0 hw1]
      rw [tickVoice_cmd_result p _ 0 hcmd]
      intro hcon
      exact EnvelopeCommand.noConfusion hcon
    obtain ⟨ihk, ihq, ihp, ihl, ihother, ihw⟩ := ih (tickState p s) hw1 hother1 hcmd1
    rw [Function.iterate_succ_apply]
    refine ⟨by rw [ihk, hk1], by rw [ihq, hq1], by rw [ihp, hp1], by rw [ihl, hl1], ?_, ?_⟩
    · intro i hi hiw
      exact ihother i (by rw [hl1]; exact hi) hiw
    · rw [ihw]
      rw [hl1] at hw1
      rw [hv1 w0 hw1]
      rw [Function.iterate_succ_apply]
      have := tickVoice_gen_indep p (getVoice s w0) 0 hcmd
      rw [this]

theorem drainVoice_active (cfg : Config) (s : CtrlState) (w0 : Nat)
    (hw : (getVoice s w0).needsFree = true)
    (hmode : cfg.playbackMode = SYNTH_POLY)
    (hnokey : ¬(0 ≤ (getVoice s w0).owner ∧ (getVoice s w0).owner < (cfg.btnCount : Int) ∧
      (getKey s ((getVoice s w0).owner.toNat)).synthCh = w0 + 1)) :
    drainVoice cfg s w0 =
      { setVoice s w0 (clearedVoice (getVoice s w0)) with
          synthQueue := s.synthQueue ++ [w0 + 1] } := by
  unfold drainVoice clearedVoice
  dsimp only
  rw [if_pos hw]
  have hgk : ∀ v : Voice, getKey (setVoice s w0 v) ((getVoice s w0).owner.toNat) =
      getKey s ((getVoice s w0).owner.toNat) := fun v => rfl
  by_cases hin : 0 ≤ (getVoice s w0).owner ∧ (getVoice s w0).owner < (cfg.btnCount : Int)
  · rw [if_pos hin, hgk, if_neg (fun hsc => hnokey ⟨hin.1, hin.2, hsc⟩), if_pos hmode]
    rfl
  · rw [if_neg hin, if_pos hmode]
    rfl

theorem drain_found (cfg : Config) (w0 : Nat) :
    ∀ (L : List Nat) (s : CtrlState),
    w0 ∈ L → L.Nodup →
    (∀ i ∈ L, i ≠ w0 → (getVoice s i).needsFree = false) →
    (getVoice s w0).needsFree = true →
    cfg.playbackMode = SYNTH_POLY →
    ¬(0 ≤ (getVoice s w0).owner ∧ (getVoice s w0).owner < (cfg.btnCount : Int) ∧
      (getKey s ((getVoice s w0).owner.toNat)).synthCh = w0 + 1) →
    L.foldl (drainVoice cfg) s =
      { setVoice s w0 (clearedVoice (getVoice s w0)) with
          synthQueue := s.synthQueue ++ [w0 + 1] } := by
  intro L
  induction L with
  | nil => intro s hmem; simp at hmem
  | cons i t ih =>
    intro s hmem hnd hother hw hmode hnokey
    rw [List.foldl_cons]
    by_cases hiw : i = w0
    · subst hiw
      rw [drainVoice_active cfg s i hw hmode hnokey]
      apply foldl_drainVoice_id
      intro j hj
      by_cases hji : j = i
      · subst hji
        exfalso
        exact (List.nodup_cons.1 hnd).1 hj
      · have heq : getVoice { setVoice s i (clearedVoice (getVoice s i)) with
            synthQueue := s.synthQueue ++ [i + 1] } j = getVoice s j := by
          show (s.voices.set i _).getD j _ = _
          exact getD_set_ne _ _ _ _ _ (Ne.symm hji)
        rw [heq]
        exact hother j (List.mem_cons_of_mem _ hj) hji
    · have hstep : drainVoice cfg s i = s :=
        drainVoice_id cfg s i (hother i (List.mem_cons_self _ _) hiw)
      rw [hstep]
      refine ih s ?_ (List.nodup_cons.1 hnd).2 ?_ hw hmode hnokey
      · rcases List.mem_cons.1 hmem with h | h
        · exact absurd h.symm hiw
        · exact h
      · intro j hj hjw
        exact hother j (List.mem_cons_of_mem _ hj) hjw

/-! ## Round-trip helper lemmas (claim C9) -/

/-- The audio tick never writes the owner cell (only the control core
does). -/
theorem applyCommand_owner (p : EnvelopeParams) (vg : Voice × Nat) :
    ((applyCommand p vg).1).owner = vg.1.owner := by
  obtain ⟨v, g⟩ := vg
  obtain ⟨env, cmd, inUse, needsFree, gen, owner, inc, counter, retries, rc⟩ := v
  unfold applyCommand
  dsimp only
  cases cmd
  all_goals dsimp only
  all_goals repeat' split
  all_goals rfl

theorem advanceStage_owner (p : EnvelopeParams) (v : Voice) :
    (advanceStage p v).owner = v.owner := by
  unfold advanceStage
  dsimp only
  repeat' split
  all_goals dsimp only
  all_goals repeat' split
  all_goals rfl

/-- The audio tick never writes the owner cell (only the control core
does). -/
theorem tickVoice_owner (p : EnvelopeParams) (vg : Voice × Nat) :
    ((tickVoice p vg).1).owner = vg.1.owner := by
  unfold tickVoice
  dsimp only
  split
  · exact applyCommand_owner p vg
  · split
    · split
      · exact (advanceStage_owner p _).trans (applyCommand_owner p vg)
      · show (advanceStage p ((applyCommand p vg).1)).owner = _
        exact (advanceStage_owner p _).trans (applyCommand_owner p vg)
    · split
      · exact (advanceStage_owner p _).trans (applyCommand_owner p vg)
      · show (advanceStage p ((applyCommand p vg).1)).owner = _
        exact (advanceStage_owner p _).trans (applyCommand_owner p vg)

theorem iterate_tickVoice_owner (p : EnvelopeParams) (n : Nat) :
    ∀ vg : Voice × Nat, (((tickVoice p)^[n] vg).1).owner = vg.1.owner := by
  induction n with
  | zero => intro vg; rfl
  | succ m ih =>
    intro vg
    rw [Function.iterate_succ_apply]
    rw [ih (tickVoice p vg)]
    exact tickVoice_owner p vg

theorem assignMIDIChannelOnPress_frame (cfg : Config) (s : CtrlState) (x : Nat) (k : Key) :
    (assignMIDIChannelOnPress cfg s x k).voices = s.voices ∧
    (assignMIDIChannelOnPress cfg s x k).synthQueue = s.synthQueue ∧
    (assignMIDIChannelOnPress cfg s x k).nextVoiceGeneration = s.nextVoiceGeneration := by
  unfold assignMIDIChannelOnPress setKey takeMPEChannel
  dsimp only
  refine ⟨?_, ?_, ?_⟩ <;> (repeat' split) <;> rfl

theorem sendNoteOnMessages_frame (cfg : Config) (ji : CtrlState → Nat → Int)
    (s1 : CtrlState) (x : Nat) :
    (sendNoteOnMessages cfg ji s1 x).voices = s1.voices ∧
    (sendNoteOnMessages cfg ji s1 x).synthQueue = s1.synthQueue ∧
    (sendNoteOnMessages cfg ji s1 x).nextVoiceGeneration = s1.nextVoiceGeneration := by
  unfold sendNoteOnMessages setKey
  dsimp only
  refine ⟨?_, ?_, ?_⟩ <;> (repeat' split) <;> rfl

/-- The MIDI note-on touches no synth-side state. -/
theorem tryMIDInoteOn_frame (cfg : Config) (ji : CtrlState → Nat → Int)
    (s : CtrlState) (x : Nat) :
    (tryMIDInoteOn cfg ji s x).voices = s.voices ∧
    (tryMIDInoteOn cfg ji s x).synthQueue = s.synthQueue ∧
    (tryMIDInoteOn cfg ji s x).nextVoiceGeneration = s.nextVoiceGeneration := by
  have hA := assignMIDIChannelOnPress_frame cfg s x (getKey s x)
  have hS := sendNoteOnMessages_frame cfg ji (assignMIDIChannelOnPress cfg s x (getKey s x)) x
  unfold tryMIDInoteOn
  dsimp only
  refine ⟨?_, ?_, ?_⟩
  · split
    · rfl
    · split
      · rfl
      · exact hS.1.trans hA.1
  · split
    · rfl
    · split
      · rfl
      · exact hS.2.1.trans hA.2.1
  · split
    · rfl
    · split
      · rfl
      · exact hS.2.2.trans hA.2.2

/-- The MIDI note-off touches no synth-side state. -/
theorem tryMIDInoteOff_frame (cfg : Config) (s : CtrlState) (x : Nat) :
    (tryMIDInoteOff cfg s x).voices = s.voices ∧
    (tryMIDInoteOff cfg s x).synthQueue = s.synthQueue ∧
    (tryMIDInoteOff cfg s x).nextVoiceGeneration = s.nextVoiceGeneration := by
  unfold tryMIDInoteOff setKey
  dsimp only
  refine ⟨?_, ?_, ?_⟩ <;> (repeat' split) <;> rfl

/-- After `assignSynthChannel` the key records the channel and is
otherwise untouched. -/
theorem assignSynthChannel_key (incOf : Nat → Nat) (s : CtrlState) (x ch : Nat)
    (hch : ch ≠ 0) (hk : x < s.keys.length) :
    getKey (assignSynthChannel incOf s x ch) x = { getKey s x with synthCh := ch } := by
  unfold assignSynthChannel beginEnvelopeAttack setSynthFreq
  rw [if_neg hch]
  dsimp only
  simp [getKey, setKey, setVoice, List.getD_eq_getElem?_getD, List.getElem?_set_self',
    List.getElem?_eq_getElem, hk]

/-- `assignSynthChannel` writes no voice slot other than `ch - 1`. -/
theorem assignSynthChannel_voice_ne (incOf : Nat → Nat) (s : CtrlState) (x ch j : Nat)
    (hch : ch ≠ 0) (hj : j ≠ ch - 1) :
    getVoice (assignSynthChannel incOf s x ch) j = getVoice s j := by
  unfold assignSynthChannel beginEnvelopeAttack setSynthFreq
  rw [if_neg hch]
  dsimp only
  simp only [getVoice, setVoice, setKey]
  rw [getD_set_ne _ _ _ _ _ (Ne.symm hj), getD_set_ne _ _ _ _ _ (Ne.symm hj),
    getD_set_ne _ _ _ _ _ (Ne.symm hj)]

theorem assignSynthChannel_lengths (incOf : Nat → Nat) (s : CtrlState) (x ch : Nat)
    (hch : ch ≠ 0) :
    (assignSynthChannel incOf s x ch).voices.length = s.voices.length ∧
    (assignSynthChannel incOf s x ch).keys.length = s.keys.length := by
  unfold assignSynthChannel beginEnvelopeAttack setSynthFreq
  rw [if_neg hch]
  dsimp only
  constructor <;> simp [setVoice, setKey]

theorem beginEnvelopeRelease_frame (s : CtrlState) (i : Nat) :
    (beginEnvelopeRelease s i).keys = s.keys ∧
    (beginEnvelopeRelease s i).synthQueue = s.synthQueue ∧
    (beginEnvelopeRelease s i).mpeAvailableChannels = s.mpeAvailableChannels ∧
    (beginEnvelopeRelease s i).voices.length = s.voices.length := by
  unfold beginEnvelopeRelease
  split
  · exact ⟨rfl, rfl, rfl, rfl⟩
  · exact ⟨rfl, rfl, rfl, by simp [setVoice]⟩

theorem beginEnvelopeRelease_voice_self (s : CtrlState) (i : Nat)
    (hi : i < POLYPHONY_LIMIT) (hlen : i < s.voices.length) :
    getVoice (beginEnvelopeRelease s i) i =
      { getVoice s i with retries := releaseRetryLimit, retryCountdown := 0, cmd := .StartRelease } := by
  unfold beginEnvelopeRelease
  rw [if_neg (by omega)]
  exact getVoice_setVoice_self s i _ hlen

theorem beginEnvelopeRelease_voice_ne (s : CtrlState) (i j : Nat) (hj : j ≠ i) :
    getVoice (beginEnvelopeRelease s i) j = getVoice s j := by
  unfold beginEnvelopeRelease
  split
  · rfl
  · exact getVoice_setVoice_ne s i j _ (Ne.symm hj)

/-- With the free-list non-empty and no frees pending, the poly-mode
note-on pops the queue front and assigns it. -/
theorem trySynthNoteOn_pop (cfg : Config) (incOf : Nat → Nat) (s : CtrlState)
    (x w : Nat) (qrest : List Nat)
    (hmode : cfg.playbackMode = SYNTH_POLY)
    (hq : s.synthQueue = w :: qrest)
    (hfree : ∀ i, i < POLYPHONY_LIMIT → (getVoice s i).needsFree = false) :
    trySynthNoteOn cfg incOf s x =
      { assignSynthChannel incOf { s with synthQueue := qrest } x w with
          log := (assignSynthChannel incOf { s with synthQueue := qrest } x w).log ++
            [.poppedSynthChannel w] } := by
  unfold trySynthNoteOn
  dsimp only
  rw [if_neg (by rw [hmode]; decide), if_pos hmode]
  rw [processEnvelopeReleases_id cfg s hfree]
  rw [hq]

/-- In poly mode a note-off for a key holding a synth channel clears the
key and issues the release to that channel's voice. -/
theorem trySynthNoteOff_direct (cfg : Config) (incOf : Nat → Nat) (s : CtrlState) (x : Nat)
    (hmode : cfg.playbackMode = SYNTH_POLY)
    (hsc : (getKey s x).synthCh ≠ 0) :
    trySynthNoteOff cfg incOf s x =
      beginEnvelopeRelease (setKey s x { getKey s x with synthCh := 0 })
        ((getKey s x).synthCh - 1) := by
  unfold trySynthNoteOff
  dsimp only
  rw [if_neg (by rw [hmode]; decide), if_neg (not_ne_iff.mpr hmode), if_pos hsc]

/-- Counterexample to claim C9 as stated: with all eight voices busy the
free-list is empty before the press, so the note-on steals a voice; after
the release, one audio tick (instant release) and one drain, the
free-list holds the freed channel `[1]` — not its pre-press (empty)
contents, so the round trip does not restore the synth voice
free-list. -/
theorem round_trip_steal_counterexample :
    ¬ ((processEnvelopeReleases c9cfg ((tickState c9params)^[1]
        (trySynthNoteOff c9cfg (fun _ => 1) (tryMIDInoteOff c9cfg
          (trySynthNoteOn c9cfg (fun _ => 1)
            (tryMIDInoteOn c9cfg (fun _ _ => 0) c9state 0) 0) 0) 0))).synthQueue.Perm
      c9state.synthQueue) := by
  decide

/-- Claim C9 (amended): in poly mode with the MPE pool discipline
active, pressing a fresh key (note-on through both allocators, the pool
and the free-list non-empty so no voice is stolen, no frees pending and
every other voice quiet) and then releasing it — note-off through both
allocators, at least `releaseTicks` (and at least one) audio ticks, and
one control-loop drain — restores the MIDI channel pool and the synth
voice free-list to their pre-press contents up to order. -/
theorem round_trip_restores_pools (cfg : Config) (ji : CtrlState → Nat → Int)
    (incOf : Nat → Nat) (p : EnvelopeParams) (s : CtrlState) (x c w n : Nat)
    (poolRest qrest : List Nat)
    (hmode : cfg.playbackMode = SYNTH_POLY)
    (hactive : cfg.mpeChannelQueueActive = true)
    (hneeded : cfg.pitchBendsNeeded ≠ 1)
    (havail : mpePlayableChannelCount cfg ≠ 0)
    (hpool : s.mpeAvailableChannels = c :: poolRest)
    (hc0 : c ≠ 0)
    (hlow : cfg.mpeLowestChannel ≤ c)
    (hhigh : c ≤ cfg.mpeHighestChannel)
    (hq : s.synthQueue = w :: qrest)
    (hw1 : 1 ≤ w)
    (hw8 : w ≤ POLYPHONY_LIMIT)
    (hx : x < s.keys.length)
    (hnote : (getKey s x).note < 128)
    (hch0 : (getKey s x).MIDIch = 0)
    (hlen : s.voices.length = POLYPHONY_LIMIT)
    (hclean : ∀ i, i < POLYPHONY_LIMIT →
      (getVoice s i).cmd = .None ∧ (getVoice s i).env.stage ≠ .Release ∧
      (getVoice s i).needsFree = false)
    (hn1 : 1 ≤ n)
    (hn : p.releaseTicks ≤ n) :
    (processEnvelopeReleases cfg ((tickState p)^[n]
        (trySynthNoteOff cfg incOf (tryMIDInoteOff cfg
          (trySynthNoteOn cfg incOf (tryMIDInoteOn cfg ji s x) x) x) x))).mpeAvailableChannels.Perm
      s.mpeAvailableChannels ∧
    (processEnvelopeReleases cfg ((tickState p)^[n]
        (trySynthNoteOff cfg incOf (tryMIDInoteOff cfg
          (trySynthNoteOn cfg incOf (tryMIDInoteOn cfg ji s x) x) x) x))).synthQueue.Perm
      s.synthQueue := by
  obtain ⟨jiv, hmpool, hmkeys⟩ :=
    tryMIDInoteOn_mpe_shape cfg ji s x c poolRest hactive hneeded hx hnote hch0 havail hpool hc0
  obtain ⟨hmv, hmq, hmg⟩ := tryMIDInoteOn_frame cfg ji s x
  set m := tryMIDInoteOn cfg ji s x with hmdef
  have hmklen : m.keys.length = s.keys.length := by rw [hmkeys]; simp
  have hmkx : getKey m x = { getKey s x with MIDIch := c, jiRetune := jiv } := by
    show m.keys.getD x {} = _
    rw [hmkeys]
    exact getD_set_self _ _ _ _ hx
  have hmfree : ∀ i, i < POLYPHONY_LIMIT → (getVoice m i).needsFree = false := by
    intro i hi
    show (m.voices.getD i {}).needsFree = false
    rw [hmv]
    exact (hclean i hi).2.2
  have hmq2 : m.synthQueue = w :: qrest := by rw [hmq, hq]
  rw [trySynthNoteOn_pop cfg incOf m x w qrest hmode hmq2 hmfree]
  set m1 : CtrlState := { m with synthQueue := qrest } with hm1def
  have hw0 : w ≠ 0 := by omega
  have hwm1 : w - 1 < m1.voices.length := by
    show w - 1 < m.voices.length
    rw [hmv, hlen]
    have h8 : w ≤ 8 := hw8
    show w - 1 < 8
    omega
  have hxm1 : x < m1.keys.length := by
    show x < m.keys.length
    rw [hmklen]
    exact hx
  obtain ⟨hspOwner, hspGen, hspCmd, hspInUse, hspNF, hspGenCtr, hspKeyCh, hspQ, hspPool⟩ :=
    assignSynthChannel_spec incOf m1 x w hw0 hwm1 hxm1
  obtain ⟨hsplenv, hsplenk⟩ := assignSynthChannel_lengths incOf m1 x w hw0
  set sp := assignSynthChannel incOf m1 x w with hspdef
  have hspKey : getKey sp x = { getKey s x with MIDIch := c, jiRetune := jiv, synthCh := w } := by
    rw [hspdef, assignSynthChannel_key incOf m1 x w hw0 hxm1]
    have hmx1 : getKey m1 x = { getKey s x with MIDIch := c, jiRetune := jiv } := hmkx
    rw [hmx1]
  set sp2 : CtrlState := { sp with log := sp.log ++ [LogEvent.poppedSynthChannel w] } with hsp2def
  have hxsp2 : x < sp2.keys.length := by
    show x < sp.keys.length
    rw [hsplenk]
    exact hxm1
  have hchsp2 : (getKey sp2 x).MIDIch ≠ 0 := by
    show (getKey sp x).MIDIch ≠ 0
    rw [hspKey]
    exact hc0
  obtain ⟨hoffpool, hoffkeys⟩ := tryMIDInoteOff_shape cfg sp2 x hxsp2 hchsp2
  obtain ⟨hoffv, hoffq, hoffg⟩ := tryMIDInoteOff_frame cfg sp2 x
  set off := tryMIDInoteOff cfg sp2 x with hoffdef
  have hxoff : x < off.keys.length := by
    rw [hoffkeys]
    simpa using hxsp2
  have hoffkx : getKey off x = { getKey s x with MIDIch := 0, jiRetune := 0, synthCh := w } := by
    show off.keys.getD x {} = _
    rw [hoffkeys, getD_set_self _ _ _ _ hxsp2]
    have hsp2x : getKey sp2 x = { getKey s x with MIDIch := c, jiRetune := jiv, synthCh := w } := hspKey
    rw [hsp2x]
  have hscoff : (getKey off x).synthCh ≠ 0 := by
    rw [hoffkx]
    exact hw0
  have hrel : trySynthNoteOff cfg incOf off x =
      beginEnvelopeRelease (setKey off x { getKey off x with synthCh := 0 }) (w - 1) := by
    rw [trySynthNoteOff_direct cfg incOf off x hmode hscoff, hoffkx]
  rw [hrel]
  set s2off : CtrlState := setKey off x { getKey off x with synthCh := 0 } with hs2offdef
  obtain ⟨hrk, hrq, hrp, hrl⟩ := beginEnvelopeRelease_frame s2off (w - 1)
  set rel := beginEnvelopeRelease s2off (w - 1) with hreldef
  have hrelq : rel.synthQueue = qrest := by
    rw [hrq]
    show off.synthQueue = qrest
    rw [hoffq]
    show sp.synthQueue = qrest
    rw [hspQ, hm1def]
  have h1 : (getKey sp2 x).MIDIch = c := by
    show (getKey sp x).MIDIch = c
    rw [hspKey]
  have h2 : sp2.mpeAvailableChannels = poolRest := by
    show sp.mpeAvailableChannels = poolRest
    rw [hspPool, hm1def]
    exact hmpool
  have hrelp : rel.mpeAvailableChannels = releaseMPEChannel cfg c poolRest := by
    rw [hrp]
    show off.mpeAvailableChannels = _
    rw [hoffpool, h1, if_pos ⟨hactive, hlow, hhigh⟩, h2]
  have hrelkx : getKey rel x = { getKey s x with MIDIch := 0, jiRetune := 0, synthCh := 0 } := by
    show rel.keys.getD x {} = _
    rw [hrk]
    show (off.keys.set x { getKey off x with synthCh := 0 }).getD x {} = _
    rw [getD_set_self _ _ _ _ hxoff, hoffkx]
  have hwrel : w - 1 < s2off.voices.length := by
    show w - 1 < off.voices.length
    rw [hoffv]
    show w - 1 < sp.voices.length
    rw [hsplenv]
    exact hwm1
  have hw1lt : w - 1 < POLYPHONY_LIMIT := by
    have h8 : w ≤ 8 := hw8
    show w - 1 < 8
    omega
  have hrelvw : getVoice rel (w - 1) =
      { getVoice s2off (w - 1) with retries := releaseRetryLimit, retryCountdown := 0, cmd := .StartRelease } := by
    rw [hreldef]
    exact beginEnvelopeRelease_voice_self s2off (w - 1) hw1lt hwrel
  have hrelcmd : (getVoice rel (w - 1)).cmd = .StartRelease := by rw [hrelvw]
  have hrelowner : (getVoice rel (w - 1)).owner = (x : Int) := by
    rw [hrelvw]
    show (getVoice s2off (w - 1)).owner = (x : Int)
    show (off.voices.getD (w - 1) {}).owner = (x : Int)
    rw [hoffv]
    show (getVoice sp (w - 1)).owner = (x : Int)
    exact hspOwner
  have hrelother : ∀ j, j ≠ w - 1 → getVoice rel j = getVoice s j := by
    intro j hj
    rw [hreldef, beginEnvelopeRelease_voice_ne s2off (w - 1) j hj]
    show (off.voices.getD j {}) = getVoice s j
    rw [hoffv]
    show getVoice sp j = getVoice s j
    rw [hspdef, assignSynthChannel_voice_ne incOf m1 x w j hw0 hj]
    show m.voices.getD j {} = getVoice s j
    rw [hmv]
    rfl
  have hrellen : rel.voices.length = POLYPHONY_LIMIT := by
    rw [hrl]
    show off.voices.length = POLYPHONY_LIMIT
    rw [hoffv]
    show sp.voices.length = POLYPHONY_LIMIT
    rw [hsplenv]
    show m.voices.length = POLYPHONY_LIMIT
    rw [hmv, hlen]
  have hothercond : ∀ i, i < rel.voices.length → i ≠ w - 1 →
      (getVoice rel i).cmd = .None ∧ (getVoice rel i).env.stage ≠ .Release ∧
      (getVoice rel i).needsFree = false := by
    intro i hi hiw
    rw [hrelother i hiw]
    exact hclean i (by rw [hrellen] at hi; exact hi)
  have hcmdne : (getVoice rel (w - 1)).cmd ≠ .StartAttack := by
    rw [hrelcmd]
    intro hcon
    exact EnvelopeCommand.noConfusion hcon
  have hwlt : w - 1 < rel.voices.length := by
    rw [hrellen]
    exact hw1lt
  obtain ⟨htk, htq, htp, htl, htoth, htw⟩ := tickState_iter p (w - 1) n rel hwlt hothercond hcmdne
  set st := (tickState p)^[n] rel with hstdef
  obtain ⟨-, -, -, hnf⟩ := startRelease_ticks_free p (getVoice rel (w - 1)) 0 n hrelcmd hn1 hn
  have hstw_nf : (getVoice st (w - 1)).needsFree = true := by
    rw [htw]
    exact hnf
  have hstw_owner : (getVoice st (w - 1)).owner = (x : Int) := by
    rw [htw, iterate_tickVoice_owner p n (getVoice rel (w - 1), 0)]
    exact hrelowner
  have hnokey : ¬(0 ≤ (getVoice st (w - 1)).owner ∧
      (getVoice st (w - 1)).owner < (cfg.btnCount : Int) ∧
      (getKey st ((getVoice st (w - 1)).owner.toNat)).synthCh = (w - 1) + 1) := by
    rintro ⟨-, -, h3⟩
    rw [hstw_owner, Int.toNat_natCast] at h3
    have hkk : getKey st x = getKey rel x := by
      show st.keys.getD x {} = rel.keys.getD x {}
      rw [htk]
    rw [hkk, hrelkx] at h3
    have h0 : (0 : Nat) = w - 1 + 1 := h3
    omega
  have hdrain := drain_found cfg (w - 1) (List.range POLYPHONY_LIMIT) st
    (List.mem_range.2 hw1lt) (List.nodup_range _)
    (fun i hi hiw => htoth i (by rw [hrellen]; exact List.mem_range.1 hi) hiw)
    hstw_nf hmode hnokey
  have hfinal : processEnvelopeReleases cfg st =
      { setVoice st (w - 1) (clearedVoice (getVoice st (w - 1))) with
          synthQueue := st.synthQueue ++ [w - 1 + 1] } := hdrain
  rw [hfinal]
  constructor
  · show st.mpeAvailableChannels.Perm s.mpeAvailableChannels
    rw [htp, hrelp, hpool]
    exact releaseMPEChannel_perm cfg c poolRest hlow hhigh
  · show (st.synthQueue ++ [w - 1 + 1]).Perm s.synthQueue
    rw [htq, hrelq, hq]
    have hww : w - 1 + 1 = w := by omega
    rw [hww]
    exact List.perm_append_singleton w qrest

theorem round_trip_restores_pools_witness :
    (processEnvelopeReleases c9cfg ((tickState c9params)^[1]
        (trySynthNoteOff c9cfg (fun _ => 1) (tryMIDInoteOff c9cfg
          (trySynthNoteOn c9cfg (fun _ => 1)
            (tryMIDInoteOn c9cfg (fun _ _ => 0) c9wstate 0) 0) 0) 0))).mpeAvailableChannels.Perm
      c9wstate.mpeAvailableChannels ∧
    (processEnvelopeReleases c9cfg ((tickState c9params)^[1]
        (trySynthNoteOff c9cfg (fun _ => 1) (tryMIDInoteOff c9cfg
          (trySynthNoteOn c9cfg (fun _ => 1)
            (tryMIDInoteOn c9cfg (fun _ _ => 0) c9wstate 0) 0) 0) 0))).synthQueue.Perm
      c9wstate.synthQueue :=
  round_trip_restores_pools c9cfg (fun _ _ => 0) (fun _ => 1) c9params c9wstate 0 2 1 1 [] []
    rfl rfl (by decide) (by decide) rfl (by decide) (by decide) (by decide) rfl (by decide)
    (by decide) (by decide) (by decide) rfl (by decide) (by decide) (by decide) (by decide)

end HexBoard
